import Mathlib

/-!
Verification of the ShKeeper Blender add-on (`__init__.py`).

This file is a shallow embedding of the add-on's data model and operators.
The Blender host scene graph is modelled explicitly: a `Scene` holds the
objects (each with its own mesh datablock, modifier stack and optional
shape-key datablock) and the armatures; host primitives
(`modifier_apply`, `modifier_remove`, `shape_key_remove`, `join_shapes`,
`animation_data_create`, datablock copy and removal, selection state)
are modelled as pure state transformers following the contracts the
add-on relies on.  Python exceptions (`IndexError` / `AttributeError`
raised by the host API, and failures of `modifier_apply`) are modelled
with `Option`: `none` is an abnormal termination that propagates to the
operator.

Numeric conventions: the Python float fields touched by the add-on are
only ever copied verbatim or assigned small integral constants, so they
are modelled as exact integers (`PyFloat`); NLA strip start frames go
through Python's truncating `int(...)` conversion and are kept rational.
Mesh geometry is opaque: `Geo.base` is an initial datablock and
`Geo.modApplied` records a modifier permanently baked into the geometry,
so the list of baked modifiers can be read back off a geometry value.
-/

namespace ShKeeper

/-- Python float values used by the add-on, modelled as exact integers:
the code only copies them between fields or assigns integral constants. -/
abbrev PyFloat := Int

inductive ReportLevel where
  | INFO
  | ERROR
deriving DecidableEq

structure Report where
  level : ReportLevel
  msg : String
deriving DecidableEq

inductive OpResult where
  | FINISHED
  | CANCELLED
deriving DecidableEq

/-- Modifier types distinguished by the add-on; every other type is opaque. -/
inductive ModifierType where
  | ARMATURE
  | SUBSURF
  | OTHER (s : String)
deriving DecidableEq

def modTypeStr : ModifierType → String
  | ModifierType.ARMATURE => "ARMATURE"
  | ModifierType.SUBSURF => "SUBSURF"
  | ModifierType.OTHER s => s

/-- A modifier on an object's stack.  `object` is the armature target of an
Armature modifier (`modifier.object`), referenced by armature id.  `valid`
models the host-side state deciding whether `bpy.ops.object.modifier_apply`
succeeds on this modifier or raises. -/
structure Modifier where
  name : String
  mtype : ModifierType
  show_only_control_edges : Bool
  object : Option Nat
  valid : Bool
deriving DecidableEq

/-- Opaque mesh geometry.  `modApplied g m` is the geometry after the host
permanently baked modifier `m` (in its configuration at application time)
into `g`. -/
inductive Geo where
  | base (id : Nat)
  | modApplied (g : Geo) (m : Modifier)
deriving DecidableEq

/-- The modifiers baked into a geometry value, oldest first. -/
def appliedMods : Geo → List Modifier
  | Geo.base _ => []
  | Geo.modApplied g m => appliedMods g ++ [m]

structure DriverTarget where
  tid : Nat
  data_path : String
  bone_target : String
  transform_space : String
  transform_type : String
deriving DecidableEq

structure DriverVariable where
  name : String
  vtype : String
  targets : List DriverTarget
deriving DecidableEq

/-- A driver FCurve (`fcurve.driver` fields are inlined: `dtype` is
`driver.type`, `expression` is `driver.expression`, `use_self` is
`driver.use_self`, `vars` is `driver.variables`). -/
structure Driver where
  data_path : String
  mute : Bool
  dtype : String
  expression : String
  use_self : Bool
  vars : List DriverVariable
deriving DecidableEq

/-- An action datablock; its keyframe content is opaque, and copying a
datablock copies the content. -/
abbrev BAction := String

structure NlaStrip where
  name : String
  frame_start : Rat
  action : BAction
  blend_in : PyFloat
  blend_out : PyFloat
  use_auto_blend : Bool
  extrapolation : String
deriving DecidableEq

structure NlaTrack where
  name : String
  is_solo : Bool
  mute : Bool
  strips : List NlaStrip
deriving DecidableEq

structure AnimationData where
  action : Option BAction
  drivers : List Driver
  nla_tracks : List NlaTrack
deriving DecidableEq

/-- One shape key (`key_blocks` entry).  `data` is the key's absolute shape. -/
structure ShapeKey where
  name : String
  mute : Bool
  slider_min : PyFloat
  slider_max : PyFloat
  value : PyFloat
  interpolation : String
  lock_shape : Bool
  vertex_group : String
  data : Geo
deriving DecidableEq

/-- The shape-key datablock (`obj.data.shape_keys`, Blender's `Key` ID;
`key.id_data` of every key block is this datablock).  `keyframes` logs the
`keyframe_insert` calls performed on it (data path and frame). -/
structure Key where
  name : String
  key_blocks : List ShapeKey
  animation_data : Option AnimationData
  keyframes : List (String × Int)
deriving DecidableEq

/-- A mesh datablock.  Each object owns its mesh by value: every copy the
add-on makes copies the datablock (`copy_obj.data = obj.data.copy()`). -/
structure Mesh where
  geo : Geo
  shape_keys : Option Key
deriving DecidableEq

structure Obj where
  id : Nat
  name : String
  otype : String
  selected : Bool
  loc_x : PyFloat
  modifiers : List Modifier
  data : Mesh
deriving DecidableEq

structure Vec3 where
  x : PyFloat
  y : PyFloat
  z : PyFloat
deriving DecidableEq

structure Quat4 where
  w : PyFloat
  x : PyFloat
  y : PyFloat
  z : PyFloat
deriving DecidableEq

structure PoseBone where
  name : String
  location : Vec3
  rotation_quaternion : Quat4
  rotation_euler : Vec3
deriving DecidableEq

structure Armature where
  id : Nat
  bones : List PoseBone
deriving DecidableEq

/-- The host scene.  `next_id` is the host's supply of fresh datablock ids
(newly created objects get ids no existing object has). -/
structure Scene where
  objects : List Obj
  armatures : List Armature
  active : Option Nat
  frame_current : Int
  next_id : Nat
deriving DecidableEq

/-- Well-formedness of a host scene: object identities are distinct and
fresh ids are really fresh. -/
def sceneWF (s : Scene) : Prop :=
  (s.objects.map Obj.id).Nodup ∧ ∀ o ∈ s.objects, o.id < s.next_id

/- ## Generic scene-graph helpers (host selection and lookup) -/

def findObj (s : Scene) (oid : Nat) : Option Obj :=
  s.objects.find? (fun o => o.id == oid)

def updateObjById (s : Scene) (oid : Nat) (f : Obj → Obj) : Scene :=
  { s with objects := s.objects.map (fun o => if o.id = oid then f o else o) }

/-- `for o in bpy.context.scene.objects: o.select_set(False)` /
`bpy.ops.object.select_all(action="DESELECT")`. -/
def deselect_all (s : Scene) : Scene :=
  { s with objects := s.objects.map (fun o => { o with selected := false }) }

def select_obj (s : Scene) (oid : Nat) : Scene :=
  updateObjById s oid (fun o => { o with selected := true })

/- ## `copy_object` (source lines 36-50) -/

/-- One pass of the `for i in range(0, times)` loop of `copy_object`: the
copy gets its own mesh datablock (value copy), a derived name, an x offset,
and is linked into the scene. -/
def copy_object_loop (s : Scene) (obj : Obj) (offset : PyFloat) :
    Nat → Nat → Scene × List Obj
  | 0, _ => (s, [])
  | Nat.succ t, i =>
    let c : Obj := { obj with
      id := s.next_id,
      name := obj.name ++ "_shapekey_" ++ toString (i + 1),
      loc_x := obj.loc_x + offset * (Int.ofNat (i + 1)) }
    let s1 : Scene := { s with objects := s.objects ++ [c], next_id := s.next_id + 1 }
    let r := copy_object_loop s1 obj offset t (i + 1)
    (r.1, c :: r.2)

def copy_object (s : Scene) (obj : Obj) (times : Nat) (offset : PyFloat) :
    Scene × List Obj :=
  copy_object_loop s obj offset times 0

/- ## `apply_shapekey` (source lines 75-89) -/

/-- Host `obj.shape_key_remove(shapekeys[i])`: removes key block `i`; when
the last key block is removed the host frees the shape-key datablock and the
removed key's shape becomes the mesh geometry (the key is baked in). -/
def shape_key_remove_at (o : Obj) (i : Nat) : Obj :=
  match o.data.shape_keys with
  | none => o
  | some ks =>
    match ks.key_blocks.get? i with
    | none => o
    | some k =>
      let rest := ks.key_blocks.eraseIdx i
      if rest.isEmpty then
        { o with data := { o.data with geo := k.data, shape_keys := none } }
      else
        { o with data := { o.data with shape_keys := some { ks with key_blocks := rest } } }

/-- The `for i in reversed(range(0, len(shapekeys)))` loop of
`apply_shapekey`: removes every key block whose index differs from
`sk_keep`, from the highest index down. -/
def remove_other_keys (obj : Obj) (sk_keep : Int) : List Nat → Obj
  | [] => obj
  | i :: rest =>
    if (Int.ofNat i) = sk_keep then remove_other_keys obj sk_keep rest
    else remove_other_keys (shape_key_remove_at obj i) sk_keep rest

/-- `apply_shapekey(obj, sk_keep)`: deletes all shape keys except the one
with the given index, then bakes that one into the object.  `none` models a
Python exception: `obj.data.shape_keys.key_blocks` on an object without
shape keys raises, and so does the final `shapekeys[0]` when the removal
loop has already emptied the collection (which happens exactly when
`sk_keep == len(shapekeys)`, since the guard uses a strict `>`). -/
def apply_shapekey (obj : Obj) (sk_keep : Int) : Option Obj :=
  match obj.data.shape_keys with
  | none => none
  | some ks =>
    if sk_keep < 0 ∨ sk_keep > Int.ofNat ks.key_blocks.length then
      some obj
    else
      let obj1 := remove_other_keys obj sk_keep (List.range ks.key_blocks.length).reverse
      match obj1.data.shape_keys with
      | none => none
      | some ks1 =>
        match ks1.key_blocks with
        | [] => none
        | _ :: _ => some (shape_key_remove_at obj1 0)

/- ## `apply_modifiers` (source lines 92-118) -/

/-- The `for modifier in modifiers: if modifier.type == "SUBSURF": ...`
pass: disables the subsurf display optimization on the whole stack. -/
def clearSubsurfFlags (mods : List Modifier) : List Modifier :=
  mods.map (fun m =>
    if m.mtype = ModifierType.SUBSURF then { m with show_only_control_edges := false } else m)

/-- The informational report of the `except` branch:
`f"Removed invalid modifier {mod.name} ({mod.type}) from {obj.name}"`. -/
def mkInvalidReport (m : Modifier) (objName : String) : Report :=
  { level := ReportLevel.INFO,
    msg := "Removed invalid modifier " ++ m.name ++ " (" ++ modTypeStr m.mtype ++ ") from " ++ objName }

/-- Host `bpy.ops.object.modifier_remove(modifier=name)`: removes the
modifier with the given name from the active object's stack (modifier names
are unique on a stack). -/
def removeModifierByName (o : Obj) (nm : String) : Obj :=
  { o with modifiers := o.modifiers.eraseP (fun x => x.name == nm) }

/-- Host `bpy.ops.object.modifier_apply(modifier=m.name)` succeeding: the
named modifier is baked into the mesh geometry and removed from the stack. -/
def bakeModifier (o : Obj) (m : Modifier) : Obj :=
  { o with
    modifiers := o.modifiers.eraseP (fun x => x.name == m.name),
    data := { o.data with geo := Geo.modApplied o.data.geo m } }

/-- The `for mod in modifiers` loop of `apply_modifiers`, iterating over
the stack contents at loop entry: Armature modifiers are skipped; applying
any other modifier either succeeds (baked and removed by the host) or
raises, in which case the `except` branch reports and removes it. -/
def applyModsLoop (o : Obj) : List Modifier → Obj × List Report
  | [] => (o, [])
  | m :: rest =>
    if m.mtype = ModifierType.ARMATURE then
      applyModsLoop o rest
    else if m.valid then
      applyModsLoop (bakeModifier o m) rest
    else
      let r := applyModsLoop (removeModifierByName o m.name) rest
      (r.1, mkInvalidReport m o.name :: r.2)

/-- Per-object core of `apply_modifiers`: the subsurf display flags are
cleared first, then every modifier of the stack is processed in order.
The selection dance (lines 101-105) is scene state and lives in
`apply_modifiers_scene`; it commutes with the flag clearing, which touches
only this object's stack. -/
def apply_modifiers_obj (o : Obj) : Obj × List Report :=
  let o1 := { o with modifiers := clearSubsurfFlags o.modifiers }
  applyModsLoop o1 o1.modifiers

/-- `apply_modifiers(self, obj)` at scene level: deselect everything,
select the object and make it active (the host ops act on the active
object), then run the per-object core on it. -/
def apply_modifiers_scene (s : Scene) (oid : Nat) : Scene × List Report :=
  let s1 := { deselect_all s with active := some oid }
  let s2 := select_obj s1 oid
  match findObj s2 oid with
  | none => (s2, [])
  | some o =>
    let r := apply_modifiers_obj o
    (updateObjById s2 oid (fun _ => r.1), r.2)

/- ## `reset_pose` / `reset_armature_pose` (source lines 121-126, 149-162) -/

/-- `reset_pose(obj)`: per bone, location to zero, quaternion to identity,
Euler rotation assigned twice in a row — first `(0,0,0)`, then immediately
`(1,1,1)`, as in the source. -/
def reset_pose (a : Armature) : Armature :=
  { a with bones := a.bones.map (fun b =>
      let b1 := { b with location := Vec3.mk 0 0 0 }
      let b2 := { b1 with rotation_quaternion := Quat4.mk 1 0 0 0 }
      let b3 := { b2 with rotation_euler := Vec3.mk 0 0 0 }
      { b3 with rotation_euler := Vec3.mk 1 1 1 }) }

/-- Python `==` between an armature `Object` datablock and a `Modifier` is
an identity comparison across unrelated host types: it is always `False`.
This models the membership test `armature.object not in processed_armature`
of the source, whose list holds modifiers. -/
def pyEqObjectModifier (_aid : Nat) (_m : Modifier) : Bool :=
  false

/-- `next((modifier for modifier in obj.modifiers if modifier.type ==
"ARMATURE" and modifier.object), None)`. -/
def firstArmatureMod (o : Obj) : Option Modifier :=
  o.modifiers.find? (fun m => m.mtype == ModifierType.ARMATURE && m.object.isSome)

/-- The loop of `reset_armature_pose`: walks the objects, looks up the
first armature-targeting modifier, consults the `processed_armature` list
(which the source fills with the *modifier*, `processed_armature.append(armature)`,
while testing membership of `armature.object` against it), resets the
armature's pose and logs the reset (second component: the armature ids on
which `reset_pose` was invoked, in call order). -/
def resetArmLoop (arms : List Armature) (log : List Nat) (processed : List Modifier) :
    List Obj → List Armature × List Nat
  | [] => (arms, log)
  | obj :: rest =>
    match firstArmatureMod obj with
    | none => resetArmLoop arms log processed rest
    | some armature =>
      match armature.object with
      | none => resetArmLoop arms log processed rest
      | some aid =>
        if processed.any (fun m => pyEqObjectModifier aid m) then
          resetArmLoop arms log processed rest
        else
          resetArmLoop (arms.map (fun a => if a.id = aid then reset_pose a else a))
            (log ++ [aid]) (processed ++ [armature]) rest

/-- `reset_armature_pose(objects)`.  Returns the updated armatures and the
log of `reset_pose` calls (by armature id, in order). -/
def reset_armature_pose (objects : List Obj) (arms : List Armature) :
    List Armature × List Nat :=
  resetArmLoop arms [] [] objects

/- ## `add_objs_shapekeys` (source lines 137-146) -/

/-- Host defaults of a shape key newly created by `join_shapes`: it is
named after the source object and gets default per-key parameters; only the
geometry is transferred. -/
def newKeyFrom (src : Obj) : ShapeKey :=
  { name := src.name, mute := false, slider_min := 0, slider_max := 1, value := 0,
    interpolation := "KEY_LINEAR", lock_shape := false, vertex_group := "",
    data := src.data.geo }

/-- Host basis key created when `join_shapes` targets an object without
shape keys: the destination's current geometry becomes the Basis. -/
def basisKeyFrom (dest : Obj) : ShapeKey :=
  { name := "Basis", mute := false, slider_min := 0, slider_max := 1, value := 0,
    interpolation := "KEY_LINEAR", lock_shape := false, vertex_group := "",
    data := dest.data.geo }

/-- Host `bpy.ops.object.join_shapes` effect on the active object for one
selected source: the source's geometry is appended as a new shape key at
the next available index; if the destination has no shape-key datablock a
fresh one (host default name "Key") with a Basis key is created first. -/
def join_shapes_obj (dest : Obj) (src : Obj) : Obj :=
  match dest.data.shape_keys with
  | none =>
    let ks : Key := { name := "Key", key_blocks := [basisKeyFrom dest, newKeyFrom src],
                      animation_data := none, keyframes := [] }
    { dest with data := { dest.data with shape_keys := some ks } }
  | some ks =>
    let ks1 : Key := { ks with key_blocks := ks.key_blocks ++ [newKeyFrom src] }
    { dest with data := { dest.data with shape_keys := some ks1 } }

/-- `add_objs_shapekeys(destination, sources)`: deselect all, select the
sources, make the destination active, `join_shapes`. -/
def add_objs_shapekeys (s : Scene) (destId : Nat) (srcIds : List Nat) : Scene :=
  let s1 := deselect_all s
  let s2 := srcIds.foldl (fun sc srcId => select_obj sc srcId) s1
  let s3 := { s2 with active := some destId }
  srcIds.foldl (fun sc srcId =>
    match findObj sc srcId with
    | none => sc
    | some src => updateObjById sc destId (fun d => join_shapes_obj d src)) s3

/- ## Animation transfer (source lines 250-306) -/

/-- Host `id.animation_data_create()`: creates an empty animation-data
block if absent, otherwise does nothing. -/
def animation_data_create (ks : Key) : Key :=
  match ks.animation_data with
  | none =>
    { ks with animation_data := some { action := none, drivers := [], nla_tracks := [] } }
  | some _ => ks

def copyDriverTarget (t : DriverTarget) : DriverTarget :=
  { tid := t.tid, data_path := t.data_path, bone_target := t.bone_target,
    transform_space := t.transform_space, transform_type := t.transform_type }

def copyDriverVariable (v : DriverVariable) : DriverVariable :=
  { name := v.name, vtype := v.vtype, targets := v.targets.map copyDriverTarget }

/-- One driver replicated onto the receiver: `skid.driver_add(d.data_path)`
followed by the field and per-variable / per-target copies of lines 266-284. -/
def copyDriver (d : Driver) : Driver :=
  { data_path := d.data_path, mute := d.mute, dtype := d.dtype,
    expression := d.expression, use_self := d.use_self,
    vars := d.vars.map copyDriverVariable }

/-- Python `int(...)` truncation toward zero of a float value. -/
def pyInt (q : Rat) : Int := if q < 0 then -((-q).floor) else q.floor

/-- One NLA strip replicated: `new_track.strips.new(name, int(frame_start),
action)` plus the blend fields of lines 301-304; the commented-out frame
range fields are deliberately not copied. -/
def copyNlaStrip (st : NlaStrip) : NlaStrip :=
  { name := st.name, frame_start := (pyInt st.frame_start : Rat), action := st.action,
    blend_in := st.blend_in, blend_out := st.blend_out,
    use_auto_blend := st.use_auto_blend, extrapolation := st.extrapolation }

def copyNlaTrack (tr : NlaTrack) : NlaTrack :=
  { name := tr.name, is_solo := tr.is_solo, mute := tr.mute,
    strips := tr.strips.map copyNlaStrip }

/-- Lines 254-306: create animation data on the original's and receiver's
shape-key datablocks, copy the action (datablock copy), the drivers and the
NLA tracks from the original onto the receiver (an empty driver or track
collection is falsy in Python, so the guarded loops equal unguarded ones). -/
def transfer_animation (oks rks : Key) : Key × Key :=
  let oks1 := animation_data_create oks
  let rks1 := animation_data_create rks
  match oks1.animation_data, rks1.animation_data with
  | some oad, some rad =>
    let rad1 := match oad.action with
      | some a => { rad with action := some a }
      | none => rad
    let rad2 := { rad1 with drivers := rad1.drivers ++ oad.drivers.map copyDriver }
    let rad3 := { rad2 with nla_tracks := rad2.nla_tracks ++ oad.nla_tracks.map copyNlaTrack }
    (oks1, { rks1 with animation_data := some rad3 })
  | _, _ => (oks1, rks1)

/- ## `SK_OT_apply_mods.apply_all_modifiers_with_sk` (source lines 213-317) -/

/-- Lines 236-244: overwrite the metadata of the freshly joined shape key
with the original key's name, mute flag, slider bounds, value,
interpolation mode, lock flag and vertex-group reference. -/
def restore_sk_fields (sk : ShapeKey) (obj_sk : ShapeKey) : ShapeKey :=
  { sk with
    name := obj_sk.name, mute := obj_sk.mute, slider_min := obj_sk.slider_min,
    slider_max := obj_sk.slider_max, value := obj_sk.value,
    interpolation := obj_sk.interpolation, lock_shape := obj_sk.lock_shape,
    vertex_group := obj_sk.vertex_group }

/-- One pass of the donor loop (lines 225-248): read the original key `i`,
copy the object, isolate key `i` on the copy, apply its modifiers, join the
copy onto the receiver as a new shape key, restore that key's metadata, and
delete the donor object together with its mesh datablock. -/
def withSkIterBody (s : Scene) (objId receiverId : Nat) (i : Nat) :
    Option (Scene × List Report) :=
  match findObj s objId with
  | none => none
  | some obj =>
  match obj.data.shape_keys with
  | none => none
  | some oks =>
  match oks.key_blocks.get? i with
  | none => none
  | some obj_sk =>
    let r1 := copy_object s obj 1 0
    match r1.2 with
    | [] => none
    | blend :: _ =>
      match apply_shapekey blend (Int.ofNat i) with
      | none => none
      | some blend1 =>
        let s2 := updateObjById r1.1 blend.id (fun _ => blend1)
        let r2 := apply_modifiers_scene s2 blend.id
        let s4 := add_objs_shapekeys r2.1 receiverId [blend.id]
        match findObj s4 receiverId with
        | none => none
        | some recv =>
        match recv.data.shape_keys with
        | none => none
        | some rks =>
        match rks.key_blocks.get? i with
        | none => none
        | some sk =>
          let sk1 := restore_sk_fields sk obj_sk
          let rks1 : Key := { rks with key_blocks := rks.key_blocks.set i sk1 }
          let s5 := updateObjById s4 receiverId
            (fun r => { r with data := { r.data with shape_keys := some rks1 } })
          let s6 := { s5 with objects := s5.objects.filter (fun o => o.id != blend.id) }
          some (s6, r2.2)

/-- The `for i in range(1, len(obj.data.shape_keys.key_blocks))` loop. -/
def withSkLoop (objId receiverId : Nat) :
    Scene → List Report → List Nat → Option (Scene × List Report)
  | s, reps, [] => some (s, reps)
  | s, reps, i :: rest =>
    match withSkIterBody s objId receiverId i with
    | none => none
    | some r => withSkLoop objId receiverId r.1 (reps ++ r.2) rest

/-- The body of `apply_all_modifiers_with_sk` for one object of the batch:
objects without shape keys just get their modifiers applied; otherwise a
receiver copy is created and baked to the basis, every non-basis key is
baked through a donor copy and merged back, animation data is transferred,
the original is deleted, and the receiver takes over the original's name
(its shape-key datablock is named `<name>.SK`). -/
def process_obj_with_sk (s : Scene) (oid : Nat) : Option (Scene × List Report) :=
  match findObj s oid with
  | none => none
  | some obj =>
  match obj.data.shape_keys with
  | none => some (apply_modifiers_scene s oid)
  | some oks =>
    let r1 := copy_object s obj 1 0
    match r1.2 with
    | [] => none
    | receiver0 :: _ =>
      let receiverId := receiver0.id
      let s2 := updateObjById r1.1 receiverId (fun r => { r with name := "sk_receiver" })
      match findObj s2 receiverId with
      | none => none
      | some recv =>
      match apply_shapekey recv 0 with
      | none => none
      | some recv1 =>
        let s3 := updateObjById s2 receiverId (fun _ => recv1)
        let r2 := apply_modifiers_scene s3 receiverId
        match withSkLoop oid receiverId r2.1 r2.2 (List.range' 1 (oks.key_blocks.length - 1)) with
        | none => none
        | some r3 =>
          let s5 := r3.1
          match findObj s5 oid with
          | none => none
          | some obj5 =>
            let skid_name := obj5.name ++ ".SK"
            match obj5.data.shape_keys with
            | none => none
            | some oks5 =>
            match oks5.key_blocks with
            | [] => none
            | _ :: _ =>
            match findObj s5 receiverId with
            | none => none
            | some recv5 =>
            match recv5.data.shape_keys with
            | none => none
            | some rks5 =>
            match rks5.key_blocks with
            | [] => none
            | _ :: _ =>
              let tr := transfer_animation oks5 rks5
              let s6 := updateObjById s5 oid
                (fun o => { o with data := { o.data with shape_keys := some tr.1 } })
              let s7 := updateObjById s6 receiverId
                (fun r => { r with data := { r.data with shape_keys := some tr.2 } })
              let orig_name := obj5.name
              let s8 := { s7 with objects := s7.objects.filter (fun o => o.id != oid) }
              let s9 := updateObjById s8 receiverId (fun r =>
                let sks := (r.data.shape_keys).map (fun ks => { ks with name := skid_name })
                { r with data := { r.data with shape_keys := sks } })
              let s10 := updateObjById s9 receiverId (fun r => { r with name := orig_name })
              some (s10, r3.2)

/-- The `for obj in self.objects` loop of `apply_all_modifiers_with_sk`
over the batch of selected meshes (captured by id at `execute` entry). -/
def apply_all_modifiers_with_sk : Scene → List Nat → Option (Scene × List Report)
  | s, [] => some (s, [])
  | s, oid :: rest =>
    match process_obj_with_sk s oid with
    | none => none
    | some r =>
      match apply_all_modifiers_with_sk r.1 rest with
      | none => none
      | some r2 => some (r2.1, r.2 ++ r2.2)

/- ## `SK_OT_apply_mods.apply_all_modifiers` (source lines 319-332) -/

/-- The `for obj in self.objects` loop: objects with shape keys are put
aside into `next_selection`, the rest get their modifiers applied. -/
def apply_all_modifiers_loop : Scene → List Nat → List Nat → Scene × List Report × List Nat
  | s, nextSel, [] => (s, [], nextSel)
  | s, nextSel, oid :: rest =>
    match findObj s oid with
    | none => apply_all_modifiers_loop s nextSel rest
    | some o =>
      if o.data.shape_keys.isSome then
        apply_all_modifiers_loop s (nextSel ++ [oid]) rest
      else
        let r := apply_modifiers_scene s oid
        let r2 := apply_all_modifiers_loop r.1 nextSel rest
        (r2.1, r.2 ++ r2.2.1, r2.2.2)

/-- `apply_all_modifiers`: process the batch, then deselect everything and
select the objects that were put aside. -/
def apply_all_modifiers (s : Scene) (batch : List Nat) : Scene × List Report :=
  let r := apply_all_modifiers_loop s [] batch
  let s2 := deselect_all r.1
  ({ s2 with objects := s2.objects.map (fun o =>
      if r.2.2.contains o.id then { o with selected := true } else o) }, r.2.1)

/- ## `SK_OT_apply_mods.execute` (source lines 198-211) -/

inductive ApplyAction where
  | ALL_MODIFIERS
  | ALL_MODIFIERS_WITH_SHAPEKEYS
deriving DecidableEq

def noMeshReport : Report :=
  { level := ReportLevel.ERROR,
    msg := "No Active object. Please select at least 1 mesh object" }

/-- `self.objects = [obj for obj in context.selected_objects if obj.type
== "MESH"]`, captured by id. -/
def selected_mesh_ids (s : Scene) : List Nat :=
  (s.objects.filter (fun o => o.selected && o.otype == "MESH")).map Obj.id

def batchObjs (s : Scene) (batch : List Nat) : List Obj :=
  batch.filterMap (fun oid => findObj s oid)

/-- `SK_OT_apply_mods.execute`: validate the selection (error report and
CANCELLED when no mesh is selected), optionally reset the armature poses,
then dispatch on the action. -/
def sk_apply_mods_execute (action : ApplyAction) (resetPoseFlag : Bool) (s : Scene) :
    Option (Scene × List Report × OpResult) :=
  let batch := selected_mesh_ids s
  if batch.isEmpty then
    some (s, [noMeshReport], OpResult.CANCELLED)
  else
    let s1 := if resetPoseFlag then
        { s with armatures := (reset_armature_pose (batchObjs s batch) s.armatures).1 }
      else s
    match action with
    | ApplyAction.ALL_MODIFIERS =>
      let r := apply_all_modifiers s1 batch
      some (r.1, r.2, OpResult.FINISHED)
    | ApplyAction.ALL_MODIFIERS_WITH_SHAPEKEYS =>
      match apply_all_modifiers_with_sk s1 batch with
      | none => none
      | some r => some (r.1, r.2, OpResult.FINISHED)

/- ## `SK_OT_bake_shapekey_animation.execute` (source lines 415-436) -/

def bakedKeyframesReport : Report :=
  { level := ReportLevel.INFO, msg := "Baked keyframes" }

def noBakeMeshReport : Report :=
  { level := ReportLevel.ERROR,
    msg := "No appropriate mesh selected. Please select at least 1 mesh with shape keys" }

/-- Python `range(a, b + 1)` over integers. -/
def intRange (a b : Int) : List Int :=
  (List.range (b + 1 - a).toNat).map (fun k => a + Int.ofNat k)

/-- The inner `for obj in self.objects` loop for one frame: insert one
keyframe per driver FCurve data path on the object's shape-key datablock.
Accessing `.drivers` of a missing animation-data block raises (`none`). -/
def bakeFrameObjs (frame : Int) : Scene → List Nat → Option Scene
  | s, [] => some s
  | s, oid :: rest =>
    match findObj s oid with
    | none => none
    | some o =>
    match o.data.shape_keys with
    | none => none
    | some ks =>
    match ks.animation_data with
    | none => none
    | some ad =>
      let s1 := updateObjById s oid (fun ob =>
        { ob with data := { ob.data with shape_keys := (ob.data.shape_keys).map (fun k =>
          { k with keyframes := k.keyframes ++ ad.drivers.map (fun d => (d.data_path, frame)) }) } })
      bakeFrameObjs frame s1 rest

/-- The `for frame in range(START, END + 1)` loop: set the scene frame,
then keyframe every selected object. -/
def bakeFrames (objIds : List Nat) : Scene → List Int → Option Scene
  | s, [] => some s
  | s, f :: rest =>
    let s1 := { s with frame_current := f }
    match bakeFrameObjs f s1 objIds with
    | none => none
    | some s2 => bakeFrames objIds s2 rest

/-- `SK_OT_bake_shapekey_animation.execute`.  The module-level globals are
passed explicitly: `executeFlag` is `BAKE_SHAPEKEY_ANIMATION_EXECUTE` (read
through the `execute_ot` property), `frameStart` / `frameEnd` are the two
frame globals; the second returned component is the value of the execute
flag after the call (the operator clears it on a full run). -/
def bake_execute (executeFlag : Bool) (frameStart frameEnd : Int) (s : Scene) :
    Option (Scene × Bool × List Report × OpResult) :=
  if executeFlag = false then some (s, executeFlag, [], OpResult.FINISHED)
  else
    let objs := s.objects.filter (fun o =>
      o.selected && o.otype == "MESH" && o.data.shape_keys.isSome)
    if objs.isEmpty then
      some (s, executeFlag, [bakedKeyframesReport, noBakeMeshReport], OpResult.CANCELLED)
    else
      match bakeFrames (objs.map Obj.id) s (intRange frameStart frameEnd) with
      | none => none
      | some s2 => some (s2, false, [bakedKeyframesReport], OpResult.FINISHED)

/- ## `SK_OT_toggle_shapekeys_drivers.execute` (source lines 466-505) -/

inductive ToggleAction where
  | TOGGLE
  | MUTE
  | UNMUTE
deriving DecidableEq

def noDriverMeshReport : Report :=
  { level := ReportLevel.ERROR,
    msg := "No appropriate mesh selected. Please select at least 1 mesh with shape key that has driver on it" }

/-- Selection filter of the operator: selected meshes with shape keys. -/
def eligibleToggle (o : Obj) : Bool :=
  o.selected && o.otype == "MESH" && o.data.shape_keys.isSome

def toggleDriverMute (action : ToggleAction) (d : Driver) : Driver :=
  match action with
  | ToggleAction.TOGGLE => { d with mute := !d.mute }
  | ToggleAction.MUTE => { d with mute := true }
  | ToggleAction.UNMUTE => { d with mute := false }

/-- Loop body of `SK_OT_toggle_shapekeys_drivers.execute` for one eligible
object: create the animation-data block if absent (lines 479-480), then
update every driver's mute flag (the `if driver is not None` test always
holds: the host driver collection has no None entries). -/
def toggle_obj (action : ToggleAction) (o : Obj) : Obj :=
  match o.data.shape_keys with
  | none => o
  | some ks =>
    let ks1 := animation_data_create ks
    match ks1.animation_data with
    | none => o
    | some ad =>
      let ad1 := { ad with drivers := ad.drivers.map (toggleDriverMute action) }
      { o with data := { o.data with shape_keys := some { ks1 with animation_data := some ad1 } } }

def objDriverCount (o : Obj) : Nat :=
  match o.data.shape_keys with
  | none => 0
  | some ks =>
    match ks.animation_data with
    | none => 0
    | some ad => ad.drivers.length

def toggleActionWord : ToggleAction → String
  | ToggleAction.TOGGLE => "Toggled"
  | ToggleAction.MUTE => "Muted"
  | ToggleAction.UNMUTE => "Unmuted"

/-- `SK_OT_toggle_shapekeys_drivers.execute`.  Each loop iteration reads
and writes only the object at hand, so the loop over the captured eligible
objects is the pointwise update below; the report counters equal the sums
over the captured objects because `animation_data_create` creates an empty
driver list (count 0) and toggling preserves the driver count. -/
def toggle_execute (action : ToggleAction) (s : Scene) : Scene × List Report × OpResult :=
  let objs := s.objects.filter eligibleToggle
  if objs.isEmpty then
    (s, [noDriverMeshReport], OpResult.CANCELLED)
  else
    let num_toggled := (objs.map objDriverCount).sum
    let num_toggled_obj := (objs.filter (fun o => decide (0 < objDriverCount o))).length
    let s1 := { s with objects := s.objects.map (fun o =>
        if eligibleToggle o then toggle_obj action o else o) }
    let repMsg := toggleActionWord action ++ " " ++ toString num_toggled ++
      " drivers for " ++ toString num_toggled_obj ++ " objects"
    let rep : Report := { level := ReportLevel.INFO, msg := repMsg }
    (s1, [rep], OpResult.FINISHED)

/- ## Observations used by the theorems -/

/-- The mute flags of the drivers attached to an object's shape-key
datablock (empty when there is no datablock or no animation data). -/
def objDriverMutes (o : Obj) : List Bool :=
  match o.data.shape_keys with
  | none => []
  | some ks =>
    match ks.animation_data with
    | none => []
    | some ad => ad.drivers.map Driver.mute

/-- The scene-wide driver mute state, object by object. -/
def muteStates (s : Scene) : List (List Bool) :=
  s.objects.map objDriverMutes

/-- Armature-type test as it appears in every dispatch of the source. -/
def isArmatureMod (m : Modifier) : Bool :=
  m.mtype == ModifierType.ARMATURE

/-- The per-modifier effect of the subsurf pass of `apply_modifiers`. -/
def clearSubsurfOne (m : Modifier) : Modifier :=
  if m.mtype = ModifierType.SUBSURF then { m with show_only_control_edges := false } else m

/-- Equality of the eight shape-key metadata fields restored by
`apply_all_modifiers_with_sk` (lines 236-244); the key geometry is not
among them. -/
def skFieldsEq (a b : ShapeKey) : Prop :=
  a.name = b.name ∧ a.mute = b.mute ∧ a.slider_min = b.slider_min ∧
  a.slider_max = b.slider_max ∧ a.value = b.value ∧ a.interpolation = b.interpolation ∧
  a.lock_shape = b.lock_shape ∧ a.vertex_group = b.vertex_group

/- ## Concrete instances used by the closed theorems and witnesses -/

def basisKey1 : ShapeKey :=
  { name := "Basis", mute := false, slider_min := 0, slider_max := 1, value := 0,
    interpolation := "KEY_LINEAR", lock_shape := false, vertex_group := "",
    data := Geo.base 1 }

def c4mod1 : Modifier :=
  { name := "Armature1", mtype := ModifierType.ARMATURE, show_only_control_edges := false,
    object := some 7, valid := true }

def c4mod2 : Modifier :=
  { name := "Armature2", mtype := ModifierType.ARMATURE, show_only_control_edges := false,
    object := some 7, valid := true }

def c4obj1 : Obj :=
  { id := 1, name := "M1", otype := "MESH", selected := true, loc_x := 0,
    modifiers := [c4mod1], data := { geo := Geo.base 1, shape_keys := none } }

def c4obj2 : Obj :=
  { id := 2, name := "M2", otype := "MESH", selected := true, loc_x := 0,
    modifiers := [c4mod2], data := { geo := Geo.base 2, shape_keys := none } }

def c4bone : PoseBone :=
  { name := "Bone", location := Vec3.mk 3 3 3,
    rotation_quaternion := Quat4.mk 0 1 0 0, rotation_euler := Vec3.mk 2 2 2 }

def c4arm : Armature :=
  { id := 7, bones := [c4bone] }

def c5ks : Key :=
  { name := "Key", key_blocks := [basisKey1], animation_data := none, keyframes := [] }

def c5obj : Obj :=
  { id := 0, name := "C5", otype := "MESH", selected := true, loc_x := 0,
    modifiers := [], data := { geo := Geo.base 1, shape_keys := some c5ks } }

def c6obj : Obj :=
  { id := 0, name := "Lamp", otype := "LIGHT", selected := true, loc_x := 0,
    modifiers := [], data := { geo := Geo.base 1, shape_keys := none } }

def c6scene : Scene :=
  { objects := [c6obj], armatures := [], active := none, frame_current := 0, next_id := 1 }

def c10key : Key :=
  { name := "Key", key_blocks := [basisKey1], animation_data := none, keyframes := [] }

def c10obj : Obj :=
  { id := 3, name := "T", otype := "MESH", selected := true, loc_x := 0,
    modifiers := [], data := { geo := Geo.base 1, shape_keys := some c10key } }

def c10scene : Scene :=
  { objects := [c10obj], armatures := [], active := none, frame_current := 0, next_id := 4 }

def c8driver : Driver :=
  { data_path := "key_blocks[\x22Smile\x22].value", mute := false, dtype := "SCRIPTED",
    expression := "var", use_self := false, vars := [] }

def c8key : Key :=
  { name := "Key", key_blocks := [basisKey1],
    animation_data := some { action := none, drivers := [c8driver], nla_tracks := [] },
    keyframes := [] }

def c8obj : Obj :=
  { id := 0, name := "D", otype := "MESH", selected := true, loc_x := 0,
    modifiers := [], data := { geo := Geo.base 1, shape_keys := some c8key } }

def c8scene : Scene :=
  { objects := [c8obj], armatures := [], active := none, frame_current := 0, next_id := 1 }

def wmodSub : Modifier :=
  { name := "Subdivision", mtype := ModifierType.SUBSURF, show_only_control_edges := true,
    object := none, valid := true }

def wmodArm : Modifier :=
  { name := "Armature", mtype := ModifierType.ARMATURE, show_only_control_edges := false,
    object := some 7, valid := true }

def wmodBevel : Modifier :=
  { name := "Bevel", mtype := ModifierType.OTHER "BEVEL", show_only_control_edges := false,
    object := none, valid := true }

def wmodBad : Modifier :=
  { name := "Boolean", mtype := ModifierType.OTHER "BOOLEAN", show_only_control_edges := false,
    object := none, valid := false }

def c3obj : Obj :=
  { id := 0, name := "C3", otype := "MESH", selected := true, loc_x := 0,
    modifiers := [wmodSub, wmodArm, wmodBevel], data := { geo := Geo.base 1, shape_keys := none } }

def c2obj1 : Obj :=
  { id := 1, name := "First", otype := "MESH", selected := true, loc_x := 0,
    modifiers := [wmodBad], data := { geo := Geo.base 1, shape_keys := none } }

def c2obj2 : Obj :=
  { id := 2, name := "Second", otype := "MESH", selected := true, loc_x := 0,
    modifiers := [wmodSub, wmodBad, wmodBevel, wmodArm],
    data := { geo := Geo.base 2, shape_keys := none } }

def c2scene : Scene :=
  { objects := [c2obj1, c2obj2], armatures := [], active := none, frame_current := 0,
    next_id := 3 }

def w1key1 : ShapeKey :=
  { name := "Smile", mute := true, slider_min := -1, slider_max := 2, value := 1,
    interpolation := "KEY_CARDINAL", lock_shape := true, vertex_group := "head",
    data := Geo.base 11 }

def w1ks : Key :=
  { name := "KeyF", key_blocks := [basisKey1, w1key1], animation_data := none,
    keyframes := [] }

def w1obj : Obj :=
  { id := 0, name := "Face", otype := "MESH", selected := true, loc_x := 0,
    modifiers := [wmodSub],
    data := { geo := Geo.base 10, shape_keys := some w1ks } }

def w1scene : Scene :=
  { objects := [w1obj], armatures := [], active := none, frame_current := 0, next_id := 1 }

/- ## Generic lemmas about the scene-graph helpers -/

theorem find_map_idpres (l : List Obj) (g : Obj → Obj) (hg : ∀ o, (g o).id = o.id)
    (pid : Nat) :
    (l.map g).find? (fun o => o.id == pid) = (l.find? (fun o => o.id == pid)).map g := by
  induction l with
  | nil => rfl
  | cons a t ih =>
    simp only [List.map_cons, List.find?]
    rw [hg a]
    cases a.id == pid <;> simp [ih]

theorem findObj_deselect_all (s : Scene) (pid : Nat) :
    findObj (deselect_all s) pid =
      (findObj s pid).map (fun o => { o with selected := false }) := by
  unfold findObj deselect_all
  exact find_map_idpres s.objects (fun o => { o with selected := false }) (fun o => rfl) pid

theorem findObj_update (s : Scene) (oid : Nat) (f : Obj → Obj)
    (hf : ∀ o, o.id = oid → (f o).id = oid) (pid : Nat) :
    findObj (updateObjById s oid f) pid =
      (findObj s pid).map (fun o => if o.id = oid then f o else o) := by
  unfold findObj updateObjById
  refine find_map_idpres s.objects (fun o => if o.id = oid then f o else o) ?_ pid
  intro o
  by_cases h : o.id = oid
  · simp [h, hf o h]
  · simp [h]

theorem find?_some_id {l : List Obj} {pid : Nat} {q : Obj}
    (h : l.find? (fun o => o.id == pid) = some q) : q.id = pid := by
  have := List.find?_some h
  simpa using this

theorem findObj_some_id {s : Scene} {pid : Nat} {q : Obj}
    (h : findObj s pid = some q) : q.id = pid :=
  find?_some_id h

theorem findObj_update_other {s : Scene} {oid : Nat} {f : Obj → Obj}
    (hf : ∀ o, o.id = oid → (f o).id = oid) {pid : Nat} (hne : pid ≠ oid) :
    findObj (updateObjById s oid f) pid = findObj s pid := by
  rw [findObj_update s oid f hf pid]
  cases h : findObj s pid with
  | none => rfl
  | some q =>
    have hq := findObj_some_id h
    simp [hq, hne]

theorem findObj_select_other {s : Scene} {oid pid : Nat} (hne : pid ≠ oid) :
    findObj (select_obj s oid) pid = findObj s pid := by
  unfold select_obj
  refine findObj_update_other ?_ hne
  intro o h
  exact h

theorem find_nodup_self {l : List Obj} {q : Obj}
    (hnd : (l.map Obj.id).Nodup) (hmem : q ∈ l) :
    l.find? (fun o => o.id == q.id) = some q := by
  induction l with
  | nil => cases hmem
  | cons a t ih =>
    simp only [List.map_cons, List.nodup_cons] at hnd
    rcases List.mem_cons.mp hmem with h | h
    · subst h
      simp [List.find?]
    · have hne : (a.id == q.id) = false := by
        simp only [beq_eq_false_iff_ne, ne_eq]
        intro he
        exact hnd.1 (he ▸ List.mem_map_of_mem Obj.id h)
      simp only [List.find?, hne]
      exact ih hnd.2 h

theorem findObj_nodup_self {s : Scene} {q : Obj}
    (hnd : (s.objects.map Obj.id).Nodup) (hmem : q ∈ s.objects) :
    findObj s q.id = some q :=
  find_nodup_self hnd hmem

/- ## Claim C7 -/

/-- Claim C7: with the execute trigger unset, Bake Shapekey Animation does
no work — no frame change, no keyframe insertion, no report, no state
change (the scene and the trigger flag are returned as they were) — and it
returns FINISHED. -/
theorem bake_execute_gate_noop (frameStart frameEnd : Int) (s : Scene) :
    bake_execute false frameStart frameEnd s = some (s, false, [], OpResult.FINISHED) := by
  rfl

/- ## Claim C6 -/

/-- Claim C6: Apply Modifiers invoked while the selection contains zero
mesh objects reports a user-visible error, returns CANCELLED, and performs
no scene mutation whatsoever (the scene is returned unchanged: no pose
reset, no object creation or deletion, no modifier change). -/
theorem apply_mods_empty_selection_cancels (action : ApplyAction) (resetPoseFlag : Bool)
    (s : Scene) (h : selected_mesh_ids s = []) :
    sk_apply_mods_execute action resetPoseFlag s =
      some (s, [noMeshReport], OpResult.CANCELLED) := by
  simp only [sk_apply_mods_execute, h]
  rfl

theorem apply_mods_empty_selection_cancels_witness :
    selected_mesh_ids c6scene = [] ∧
      sk_apply_mods_execute ApplyAction.ALL_MODIFIERS true c6scene =
        some (c6scene, [noMeshReport], OpResult.CANCELLED) :=
  ⟨by decide,
    apply_mods_empty_selection_cancels ApplyAction.ALL_MODIFIERS true c6scene (by decide)⟩

/- ## Claim C4 -/

/-- Claim C4 (code bug witness): `reset_armature_pose` fills its dedup list
with the *modifier* (`processed_armature.append(armature)`) while testing
membership of `armature.object` against that list, so the test never
matches and the dedup is ineffective.  Here two selected meshes each carry
an Armature modifier targeting the same armature (id 7), and the reset log
shows `reset_pose` invoked twice on it, where the claim demands exactly
once. -/
theorem reset_armature_pose_shared_armature_reset_twice :
    c4mod1.object = some 7 ∧ c4mod2.object = some 7 ∧
      (reset_armature_pose [c4obj1, c4obj2] [c4arm]).2 = [7, 7] := by
  decide

/- ## Claim C5 -/

/-- Claim C5 (counterexample): the index `1` lies outside the valid range
`0 <= k < 1` of `c5obj`'s single-key ShapeKeySet, yet `apply_shapekey
c5obj 1` is not a silent no-op: the guard `sk_keep > len(shapekeys)` lets
`k = len` through, the removal loop then deletes every key and the final
`shapekeys[0]` raises an index error (modelled by `none`) instead of
returning normally with the object unchanged. -/
theorem apply_shapekey_index_eq_len_not_noop :
    c5obj.data.shape_keys = some c5ks ∧ c5ks.key_blocks.length = 1 ∧
      apply_shapekey c5obj 1 = none := by
  decide

/-- Claim C5 (amended): the shape-key isolation step is a silent no-op for
every target index `k` with `k < 0` or `k > N` — strictly greater, because
the guard of `apply_shapekey` uses `>` rather than `>=`; the remaining
out-of-range index `k = N` is not a no-op (see the counterexample). -/
theorem apply_shapekey_out_of_range_noop (o : Obj) (ks : Key) (k : Int)
    (hks : o.data.shape_keys = some ks)
    (hk : k < 0 ∨ k > Int.ofNat ks.key_blocks.length) :
    apply_shapekey o k = some o := by
  simp only [apply_shapekey, hks]
  rw [if_pos hk]

theorem apply_shapekey_out_of_range_noop_witness :
    apply_shapekey c5obj 2 = some c5obj :=
  apply_shapekey_out_of_range_noop c5obj c5ks 2 rfl (by decide)

/- ## Claim C10 -/

/-- Claim C10: Toggle Shapekey Drivers creates an animation-data block on
every selected mesh with shape keys whose shape-key container lacks one
(lines 479-480), so a run that affects zero drivers still mutates the
scene. -/
theorem toggle_drivers_creates_animation_data (action : ToggleAction) (s : Scene)
    (i : Nat) (o : Obj) (sks : Key)
    (ho : s.objects.get? i = some o) (hsel : o.selected = true) (hm : o.otype = "MESH")
    (hks : o.data.shape_keys = some sks) (had : sks.animation_data = none) :
    ∃ o1 sks1, (toggle_execute action s).1.objects.get? i = some o1 ∧
      o1.data.shape_keys = some sks1 ∧ sks1.animation_data.isSome = true := by
  have hmem : o ∈ s.objects := List.get?_mem ho
  have helig : eligibleToggle o = true := by
    simp [eligibleToggle, hsel, hm, hks]
  have hne : (s.objects.filter eligibleToggle).isEmpty = false := by
    cases hfe : s.objects.filter eligibleToggle with
    | nil =>
      have hin : o ∈ s.objects.filter eligibleToggle := List.mem_filter.mpr ⟨hmem, helig⟩
      rw [hfe] at hin
      cases hin
    | cons a t => rfl
  have hget : (toggle_execute action s).1.objects.get? i = some (toggle_obj action o) := by
    simp only [toggle_execute, hne, Bool.false_eq_true, if_false]
    rw [List.get?_map, ho]
    simp [helig]
  have hobj : ∃ sks1, (toggle_obj action o).data.shape_keys = some sks1 ∧
      sks1.animation_data.isSome = true := by
    simp only [toggle_obj, hks, animation_data_create, had]
    exact ⟨_, rfl, rfl⟩
  obtain ⟨sks1, h1, h2⟩ := hobj
  exact ⟨toggle_obj action o, sks1, hget, h1, h2⟩

theorem toggle_drivers_creates_animation_data_witness :
    ∃ o1 sks1, (toggle_execute ToggleAction.TOGGLE c10scene).1.objects.get? 0 = some o1 ∧
      o1.data.shape_keys = some sks1 ∧ sks1.animation_data.isSome = true :=
  toggle_drivers_creates_animation_data ToggleAction.TOGGLE c10scene 0 c10obj c10key
    rfl rfl rfl rfl rfl

/- ## Claims C8 and C9: helper lemmas on the toggle operator -/

theorem toggle_obj_of_no_keys {a : ToggleAction} {o : Obj}
    (hks : o.data.shape_keys = none) : toggle_obj a o = o := by
  simp only [toggle_obj, hks]

theorem toggle_obj_shape_keys {a : ToggleAction} {o : Obj} {ks : Key} {ad : AnimationData}
    (hks : o.data.shape_keys = some ks) (had : ks.animation_data = some ad) :
    (toggle_obj a o).data.shape_keys = some { ks with animation_data := some { ad with drivers := ad.drivers.map (toggleDriverMute a) } } := by
  simp only [toggle_obj, animation_data_create, hks, had]

theorem toggle_obj_shape_keys_no_ad {a : ToggleAction} {o : Obj} {ks : Key}
    (hks : o.data.shape_keys = some ks) (had : ks.animation_data = none) :
    (toggle_obj a o).data.shape_keys = some { ks with animation_data := some { action := none, drivers := [], nla_tracks := [] } } := by
  simp only [toggle_obj, animation_data_create, hks, had, List.map_nil]

theorem objDriverMutes_eq {o : Obj} {ks : Key} {ad : AnimationData}
    (hks : o.data.shape_keys = some ks) (had : ks.animation_data = some ad) :
    objDriverMutes o = ad.drivers.map Driver.mute := by
  simp only [objDriverMutes, hks, had]

theorem objDriverMutes_eq_nil {o : Obj} {ks : Key}
    (hks : o.data.shape_keys = some ks) (had : ks.animation_data = none) :
    objDriverMutes o = [] := by
  simp only [objDriverMutes, hks, had]

theorem objDriverMutes_eq_nil_of_no_keys {o : Obj}
    (hks : o.data.shape_keys = none) : objDriverMutes o = [] := by
  simp only [objDriverMutes, hks]

theorem eligibleToggle_toggle_obj (a : ToggleAction) (o : Obj) :
    eligibleToggle (toggle_obj a o) = eligibleToggle o := by
  cases hks : o.data.shape_keys with
  | none => rw [toggle_obj_of_no_keys hks]
  | some ks =>
    cases had : ks.animation_data with
    | none =>
      have h := toggle_obj_shape_keys_no_ad (a := a) hks had
      simp only [eligibleToggle, hks, h]
      simp [toggle_obj, animation_data_create, hks, had]
    | some ad =>
      simp only [eligibleToggle, hks]
      simp [toggle_obj, animation_data_create, hks, had]

theorem filter_map_eligible (l : List Obj) (f : Obj → Obj)
    (hf : ∀ o, eligibleToggle (f o) = eligibleToggle o) :
    (l.map f).filter eligibleToggle = (l.filter eligibleToggle).map f := by
  induction l with
  | nil => rfl
  | cons a t ih =>
    simp only [List.map_cons, List.filter_cons, hf a]
    cases eligibleToggle a <;> simp [ih]

theorem toggle_execute_objects (a : ToggleAction) (s : Scene)
    (hne : (s.objects.filter eligibleToggle).isEmpty = false) :
    (toggle_execute a s).1.objects =
      s.objects.map (fun o => if eligibleToggle o = true then toggle_obj a o else o) := by
  simp [toggle_execute, hne]

theorem toggle_execute_noop (a : ToggleAction) (s : Scene)
    (he : (s.objects.filter eligibleToggle).isEmpty = true) :
    (toggle_execute a s).1 = s := by
  simp [toggle_execute, he]

theorem toggle_step_preserves_eligible (a : ToggleAction) :
    ∀ o : Obj, eligibleToggle (if eligibleToggle o = true then toggle_obj a o else o) =
      eligibleToggle o := by
  intro o
  by_cases hel : eligibleToggle o = true
  · simp [hel, eligibleToggle_toggle_obj]
  · simp [hel]

theorem toggle_execute_twice_objects (a b : ToggleAction) (s : Scene)
    (hne : (s.objects.filter eligibleToggle).isEmpty = false) :
    (toggle_execute b (toggle_execute a s).1).1.objects =
      s.objects.map (fun o =>
        if eligibleToggle o = true then toggle_obj b (toggle_obj a o) else o) := by
  have h1 := toggle_execute_objects a s hne
  have hne2 : ((toggle_execute a s).1.objects.filter eligibleToggle).isEmpty = false := by
    rw [h1, filter_map_eligible _ _ (toggle_step_preserves_eligible a)]
    cases hfe : s.objects.filter eligibleToggle with
    | nil => rw [hfe] at hne; cases hne
    | cons x t => simp [hfe]
  rw [toggle_execute_objects b _ hne2, h1, List.map_map]
  have hfun : ((fun o => if eligibleToggle o = true then toggle_obj b o else o) ∘
      (fun o => if eligibleToggle o = true then toggle_obj a o else o)) =
      (fun o => if eligibleToggle o = true then toggle_obj b (toggle_obj a o) else o) := by
    funext o
    by_cases hel : eligibleToggle o = true
    · simp [Function.comp, hel, eligibleToggle_toggle_obj]
    · simp [Function.comp, hel]
  rw [hfun]

theorem toggle_obj_mute_idem (o : Obj) :
    objDriverMutes (toggle_obj ToggleAction.MUTE (toggle_obj ToggleAction.MUTE o)) =
      objDriverMutes (toggle_obj ToggleAction.MUTE o) := by
  cases hks : o.data.shape_keys with
  | none => rw [toggle_obj_of_no_keys hks, toggle_obj_of_no_keys hks]
  | some ks =>
    cases had : ks.animation_data with
    | none =>
      have h1 := toggle_obj_shape_keys_no_ad (a := ToggleAction.MUTE) hks had
      have h2 := toggle_obj_shape_keys (a := ToggleAction.MUTE) h1 rfl
      rw [objDriverMutes_eq h2 rfl, objDriverMutes_eq h1 rfl]
      rfl
    | some ad =>
      have h1 := toggle_obj_shape_keys (a := ToggleAction.MUTE) hks had
      have h2 := toggle_obj_shape_keys (a := ToggleAction.MUTE) h1 rfl
      rw [objDriverMutes_eq h2 rfl, objDriverMutes_eq h1 rfl]
      simp only [List.map_map]
      rfl

theorem toggle_obj_toggle_invol (o : Obj) :
    objDriverMutes (toggle_obj ToggleAction.TOGGLE (toggle_obj ToggleAction.TOGGLE o)) =
      objDriverMutes o := by
  cases hks : o.data.shape_keys with
  | none => rw [toggle_obj_of_no_keys hks, toggle_obj_of_no_keys hks]
  | some ks =>
    cases had : ks.animation_data with
    | none =>
      have h1 := toggle_obj_shape_keys_no_ad (a := ToggleAction.TOGGLE) hks had
      have h2 := toggle_obj_shape_keys (a := ToggleAction.TOGGLE) h1 rfl
      rw [objDriverMutes_eq h2 rfl, objDriverMutes_eq_nil hks had]
      rfl
    | some ad =>
      have h1 := toggle_obj_shape_keys (a := ToggleAction.TOGGLE) hks had
      have h2 := toggle_obj_shape_keys (a := ToggleAction.TOGGLE) h1 rfl
      rw [objDriverMutes_eq h2 rfl, objDriverMutes_eq hks had]
      simp only [List.map_map]
      have : (Driver.mute ∘ toggleDriverMute ToggleAction.TOGGLE ∘
          toggleDriverMute ToggleAction.TOGGLE) = Driver.mute := by
        funext d
        simp [Function.comp, toggleDriverMute]
      rw [this]

/- ## Claim C8 -/

/-- Claim C8: Toggle Shapekey Drivers with action MUTE is idempotent — for
every scene (hence every selection of eligible meshes and every initial
driver mute state), running the operator twice leaves every driver's mute
flag in the same state as running it once. -/
theorem toggle_drivers_mute_idempotent (s : Scene) :
    muteStates (toggle_execute ToggleAction.MUTE
        (toggle_execute ToggleAction.MUTE s).1).1 =
      muteStates (toggle_execute ToggleAction.MUTE s).1 := by
  cases he : (s.objects.filter eligibleToggle).isEmpty with
  | true =>
    rw [toggle_execute_noop ToggleAction.MUTE s he,
      toggle_execute_noop ToggleAction.MUTE s he]
  | false =>
    unfold muteStates
    rw [toggle_execute_twice_objects ToggleAction.MUTE ToggleAction.MUTE s he,
      toggle_execute_objects ToggleAction.MUTE s he, List.map_map, List.map_map]
    congr 1
    funext o
    by_cases hel : eligibleToggle o = true
    · simp only [Function.comp, hel, if_true]
      exact toggle_obj_mute_idem o
    · simp [Function.comp, hel]

/- ## Claim C9 -/

/-- Claim C9: Toggle Shapekey Drivers with action TOGGLE is an involution —
for every scene (hence every selection of eligible meshes and every initial
driver mute state), running the operator twice restores every driver's mute
flag to its original value. -/
theorem toggle_drivers_toggle_involution (s : Scene) :
    muteStates (toggle_execute ToggleAction.TOGGLE
        (toggle_execute ToggleAction.TOGGLE s).1).1 = muteStates s := by
  cases he : (s.objects.filter eligibleToggle).isEmpty with
  | true =>
    rw [toggle_execute_noop ToggleAction.TOGGLE s he,
      toggle_execute_noop ToggleAction.TOGGLE s he]
  | false =>
    unfold muteStates
    rw [toggle_execute_twice_objects ToggleAction.TOGGLE ToggleAction.TOGGLE s he,
      List.map_map]
    congr 1
    funext o
    by_cases hel : eligibleToggle o = true
    · simp only [Function.comp, hel, if_true]
      exact toggle_obj_toggle_invol o
    · simp [Function.comp, hel]

/- ## Claims C2 and C3: characterization of `apply_modifiers` -/

theorem clearSubsurfFlags_eq_map (mods : List Modifier) :
    clearSubsurfFlags mods = mods.map clearSubsurfOne := rfl

theorem clearSubsurfOne_name (m : Modifier) : (clearSubsurfOne m).name = m.name := by
  unfold clearSubsurfOne
  split <;> rfl

theorem clearSubsurfOne_mtype (m : Modifier) : (clearSubsurfOne m).mtype = m.mtype := by
  unfold clearSubsurfOne
  split <;> rfl

theorem clearSubsurfOne_valid (m : Modifier) : (clearSubsurfOne m).valid = m.valid := by
  unfold clearSubsurfOne
  split <;> rfl

theorem isArmatureMod_clearSubsurfOne (m : Modifier) :
    isArmatureMod (clearSubsurfOne m) = isArmatureMod m := by
  unfold isArmatureMod
  rw [clearSubsurfOne_mtype]

theorem clearSubsurfOne_of_armature {m : Modifier} (h : isArmatureMod m = true) :
    clearSubsurfOne m = m := by
  unfold clearSubsurfOne
  rw [if_neg]
  intro he
  unfold isArmatureMod at h
  rw [he] at h
  cases h

theorem filter_map_pres {α : Type} {p : α → Bool} {f : α → α}
    (hp : ∀ x, p (f x) = p x) (l : List α) :
    (l.map f).filter p = (l.filter p).map f := by
  induction l with
  | nil => rfl
  | cons a t ih =>
    simp only [List.map_cons, List.filter_cons, hp a]
    cases p a <;> simp [ih]

theorem filter_arm_clear (mods : List Modifier) :
    (clearSubsurfFlags mods).filter isArmatureMod = mods.filter isArmatureMod := by
  rw [clearSubsurfFlags_eq_map, filter_map_pres isArmatureMod_clearSubsurfOne]
  have h : (mods.filter isArmatureMod).map clearSubsurfOne =
      (mods.filter isArmatureMod).map id := by
    apply List.map_congr_left
    intro m hm
    simp [clearSubsurfOne_of_armature (List.of_mem_filter hm)]
  rw [h, List.map_id]

theorem names_ne_of_nodup {A rest : List Modifier} {m : Modifier}
    (hnd : ((A ++ m :: rest).map Modifier.name).Nodup) :
    ∀ a ∈ A, a.name ≠ m.name := by
  intro a ha he
  rw [List.map_append] at hnd
  rcases List.nodup_append.mp hnd with ⟨h1, h2, hdis⟩
  refine hdis (List.mem_map_of_mem Modifier.name ha) ?_
  rw [List.map_cons, he]
  exact List.mem_cons_self _ _

theorem eraseP_name_append {A : List Modifier} {m : Modifier} {rest : List Modifier}
    (hA : ∀ a ∈ A, a.name ≠ m.name) :
    (A ++ m :: rest).eraseP (fun x => x.name == m.name) = A ++ rest := by
  induction A with
  | nil =>
    simp only [List.nil_append]
    exact List.eraseP_cons_of_pos (by simp)
  | cons a t ih =>
    have hne : ¬((fun x : Modifier => x.name == m.name) a = true) := by
      simp only [beq_iff_eq]
      exact hA a (List.mem_cons_self a t)
    rw [List.cons_append,
      List.eraseP_cons_of_neg (p := fun x : Modifier => x.name == m.name) hne,
      ih (fun x hx => hA x (List.mem_cons_of_mem a hx))]
    rfl

theorem sublist_names_nodup {A : List Modifier} {m : Modifier} {rest : List Modifier}
    (hnd : ((A ++ m :: rest).map Modifier.name).Nodup) :
    ((A ++ rest).map Modifier.name).Nodup := by
  refine List.Sublist.nodup (List.Sublist.map Modifier.name ?_) hnd
  exact List.Sublist.append_left (List.sublist_cons_self m rest) A

theorem applyModsLoop_frame (ms : List Modifier) : ∀ o : Obj,
    (applyModsLoop o ms).1.id = o.id ∧
    (applyModsLoop o ms).1.name = o.name ∧
    (applyModsLoop o ms).1.otype = o.otype ∧
    (applyModsLoop o ms).1.selected = o.selected ∧
    (applyModsLoop o ms).1.loc_x = o.loc_x ∧
    (applyModsLoop o ms).1.data.shape_keys = o.data.shape_keys := by
  induction ms with
  | nil => intro o; exact ⟨rfl, rfl, rfl, rfl, rfl, rfl⟩
  | cons m rest ih =>
    intro o
    by_cases harm : m.mtype = ModifierType.ARMATURE
    · simpa [applyModsLoop, harm] using ih o
    · by_cases hval : m.valid = true
      · simpa [applyModsLoop, harm, hval] using ih (bakeModifier o m)
      · simpa [applyModsLoop, harm, hval] using ih (removeModifierByName o m.name)

theorem appliedMods_bake (o : Obj) (m : Modifier) :
    appliedMods (bakeModifier o m).data.geo = appliedMods o.data.geo ++ [m] := rfl

theorem applyModsLoop_spec (ms : List Modifier) : ∀ (o : Obj) (A : List Modifier),
    o.modifiers = A ++ ms →
    (∀ a ∈ A, isArmatureMod a = true) →
    ((A ++ ms).map Modifier.name).Nodup →
    (applyModsLoop o ms).1.modifiers = A ++ ms.filter isArmatureMod ∧
    appliedMods (applyModsLoop o ms).1.data.geo =
      appliedMods o.data.geo ++ ms.filter (fun m => !isArmatureMod m && m.valid) ∧
    (applyModsLoop o ms).2 =
      (ms.filter (fun m => !isArmatureMod m && !m.valid)).map
        (fun m => mkInvalidReport m o.name) := by
  induction ms with
  | nil =>
    intro o A hmod hA hnd
    refine ⟨by simpa [applyModsLoop] using hmod, by simp [applyModsLoop],
      by simp [applyModsLoop]⟩
  | cons m rest ih =>
    intro o A hmod hA hnd
    by_cases harm : m.mtype = ModifierType.ARMATURE
    · have harmb : isArmatureMod m = true := by simp [isArmatureMod, harm]
      have hstep : applyModsLoop o (m :: rest) = applyModsLoop o rest := by
        simp [applyModsLoop, harm]
      have hmod2 : o.modifiers = (A ++ [m]) ++ rest := by
        rw [hmod, List.append_cons]
      have hA2 : ∀ a ∈ A ++ [m], isArmatureMod a = true := by
        intro a ha
        rcases List.mem_append.mp ha with h | h
        · exact hA a h
        · rw [List.mem_singleton.mp h]; exact harmb
      have hnd2 : (((A ++ [m]) ++ rest).map Modifier.name).Nodup := by
        rw [← List.append_cons]; exact hnd
      obtain ⟨h1, h2, h3⟩ := ih o (A ++ [m]) hmod2 hA2 hnd2
      rw [hstep]
      refine ⟨?_, ?_, ?_⟩
      · rw [h1, List.filter_cons_of_pos harmb]
        simp [List.append_assoc]
      · rw [h2, List.filter_cons_of_neg (by simp [harmb])]
      · rw [h3, List.filter_cons_of_neg (by simp [harmb])]
    · have harmb : isArmatureMod m = false := by
        simp only [isArmatureMod, beq_eq_false_iff_ne, ne_eq]
        exact harm
      have hAne : ∀ a ∈ A, a.name ≠ m.name := names_ne_of_nodup hnd
      have hnd2 : ((A ++ rest).map Modifier.name).Nodup := sublist_names_nodup hnd
      by_cases hval : m.valid = true
      · have hstep : applyModsLoop o (m :: rest) = applyModsLoop (bakeModifier o m) rest := by
          simp [applyModsLoop, harm, hval]
        have hmod2 : (bakeModifier o m).modifiers = A ++ rest := by
          show (o.modifiers.eraseP (fun x => x.name == m.name)) = A ++ rest
          rw [hmod]
          exact eraseP_name_append hAne
        obtain ⟨h1, h2, h3⟩ := ih (bakeModifier o m) A hmod2 hA hnd2
        rw [hstep]
        refine ⟨?_, ?_, ?_⟩
        · rw [h1, List.filter_cons_of_neg (by simp [harmb])]
        · rw [h2, appliedMods_bake, List.filter_cons_of_pos (by simp [harmb, hval])]
          simp [List.append_assoc]
        · rw [h3, List.filter_cons_of_neg (by simp [harmb, hval])]
          rfl
      · have hvalb : m.valid = false := by
          cases hv : m.valid
          · rfl
          · exact absurd hv hval
        have hstep : applyModsLoop o (m :: rest) =
            ((applyModsLoop (removeModifierByName o m.name) rest).1,
              mkInvalidReport m o.name ::
                (applyModsLoop (removeModifierByName o m.name) rest).2) := by
          simp [applyModsLoop, harm, hvalb]
        have hmod2 : (removeModifierByName o m.name).modifiers = A ++ rest := by
          show (o.modifiers.eraseP (fun x => x.name == m.name)) = A ++ rest
          rw [hmod]
          exact eraseP_name_append hAne
        obtain ⟨h1, h2, h3⟩ := ih (removeModifierByName o m.name) A hmod2 hA hnd2
        rw [hstep]
        refine ⟨?_, ?_, ?_⟩
        · rw [h1, List.filter_cons_of_neg (by simp [harmb])]
        · rw [h2, List.filter_cons_of_neg (by simp [harmb, hvalb])]
          rfl
        · rw [h3, List.filter_cons_of_pos (by simp [harmb, hvalb]), List.map_cons]
          rfl

theorem apply_modifiers_obj_frame (o : Obj) :
    (apply_modifiers_obj o).1.id = o.id ∧
    (apply_modifiers_obj o).1.name = o.name ∧
    (apply_modifiers_obj o).1.otype = o.otype ∧
    (apply_modifiers_obj o).1.selected = o.selected ∧
    (apply_modifiers_obj o).1.loc_x = o.loc_x ∧
    (apply_modifiers_obj o).1.data.shape_keys = o.data.shape_keys :=
  applyModsLoop_frame (clearSubsurfFlags o.modifiers)
    { o with modifiers := clearSubsurfFlags o.modifiers }

theorem clearSubsurfFlags_names_nodup {mods : List Modifier}
    (hnd : (mods.map Modifier.name).Nodup) :
    ((clearSubsurfFlags mods).map Modifier.name).Nodup := by
  rw [clearSubsurfFlags_eq_map, List.map_map]
  have h : (Modifier.name ∘ clearSubsurfOne) = Modifier.name := funext clearSubsurfOne_name
  rw [h]
  exact hnd

theorem apply_modifiers_obj_spec (o : Obj)
    (hnd : (o.modifiers.map Modifier.name).Nodup) :
    (apply_modifiers_obj o).1.modifiers = (clearSubsurfFlags o.modifiers).filter isArmatureMod ∧
    appliedMods (apply_modifiers_obj o).1.data.geo =
      appliedMods o.data.geo ++
        (clearSubsurfFlags o.modifiers).filter (fun m => !isArmatureMod m && m.valid) ∧
    (apply_modifiers_obj o).2 =
      ((clearSubsurfFlags o.modifiers).filter (fun m => !isArmatureMod m && !m.valid)).map
        (fun m => mkInvalidReport m o.name) := by
  have h := applyModsLoop_spec (clearSubsurfFlags o.modifiers)
    { o with modifiers := clearSubsurfFlags o.modifiers } []
    rfl (by intro a ha; cases ha) (by simpa using clearSubsurfFlags_names_nodup hnd)
  simpa using h

/- ## Claim C3 -/

/-- Claim C3: when every non-Armature modifier is in an applicable state,
`apply_modifiers` bakes every modifier of the stack into the geometry in
stack order with exactly two exceptions: Armature modifiers are never
applied and never removed (they are exactly what remains on the stack,
unchanged), and every Subsurf modifier is applied with its
"show only control edges" display flag already disabled (the flag pass
runs before the apply loop). -/
theorem apply_modifiers_stack_exceptions (o : Obj)
    (hnd : (o.modifiers.map Modifier.name).Nodup)
    (hval : ∀ m ∈ o.modifiers, isArmatureMod m = false → m.valid = true) :
    appliedMods (apply_modifiers_obj o).1.data.geo =
      appliedMods o.data.geo ++
        (o.modifiers.filter (fun m => !isArmatureMod m)).map clearSubsurfOne ∧
    (apply_modifiers_obj o).1.modifiers = o.modifiers.filter isArmatureMod ∧
    (∀ m ∈ (o.modifiers.filter (fun m => !isArmatureMod m)).map clearSubsurfOne,
      isArmatureMod m = false) ∧
    (∀ m ∈ (o.modifiers.filter (fun m => !isArmatureMod m)).map clearSubsurfOne,
      m.mtype = ModifierType.SUBSURF → m.show_only_control_edges = false) := by
  obtain ⟨h1, h2, h3⟩ := apply_modifiers_obj_spec o hnd
  refine ⟨?_, ?_, ?_, ?_⟩
  · rw [h2]
    congr 1
    have hcong : ∀ m ∈ clearSubsurfFlags o.modifiers,
        (!isArmatureMod m && m.valid) = !isArmatureMod m := by
      intro m hm
      rw [clearSubsurfFlags_eq_map] at hm
      rcases List.mem_map.mp hm with ⟨m0, hm0, rfl⟩
      rw [isArmatureMod_clearSubsurfOne, clearSubsurfOne_valid]
      cases h : isArmatureMod m0 with
      | false => rw [hval m0 hm0 h]; rfl
      | true => rfl
    rw [List.filter_congr hcong, clearSubsurfFlags_eq_map,
      filter_map_pres (p := fun m => !isArmatureMod m)
        (fun m => by simp [isArmatureMod_clearSubsurfOne]) o.modifiers]
  · rw [h1, filter_arm_clear]
  · intro m hm
    rcases List.mem_map.mp hm with ⟨m0, hm0, rfl⟩
    rw [isArmatureMod_clearSubsurfOne]
    simpa using List.of_mem_filter hm0
  · intro m hm
    rcases List.mem_map.mp hm with ⟨m0, hm0, rfl⟩
    intro hsub
    rw [clearSubsurfOne_mtype] at hsub
    unfold clearSubsurfOne
    rw [if_pos hsub]

/- ## Claim C2: scene-level lemmas -/

theorem map_ids_of_idpres {l : List Obj} {g : Obj → Obj} (hg : ∀ o, (g o).id = o.id) :
    (l.map g).map Obj.id = l.map Obj.id := by
  rw [List.map_map]
  exact List.map_congr_left (fun o _ => hg o)

theorem findObj_map_scene {s : Scene} {g : Obj → Obj} (hg : ∀ o, (g o).id = o.id)
    (pid : Nat) :
    findObj { s with objects := s.objects.map g } pid = (findObj s pid).map g := by
  unfold findObj
  exact find_map_idpres s.objects g hg pid

theorem apply_modifiers_scene_target {s : Scene} {oid : Nat} {o : Obj}
    (hf : findObj s oid = some o) :
    findObj (apply_modifiers_scene s oid).1 oid =
      some (apply_modifiers_obj { o with selected := true }).1 ∧
    (apply_modifiers_scene s oid).2 = (apply_modifiers_obj { o with selected := true }).2 := by
  have hoid : o.id = oid := findObj_some_id hf
  have h1 : findObj { deselect_all s with active := some oid } oid =
      some { o with selected := false } := by
    show findObj (deselect_all s) oid = _
    rw [findObj_deselect_all, hf]
    rfl
  have h2 : findObj (select_obj { deselect_all s with active := some oid } oid) oid =
      some { o with selected := true } := by
    unfold select_obj
    rw [findObj_update _ oid (fun p => { p with selected := true }) (fun p hp => hp) oid, h1]
    simp [hoid]
  have hrid : (apply_modifiers_obj { o with selected := true }).1.id = oid := by
    rw [(apply_modifiers_obj_frame { o with selected := true }).1]
    exact hoid
  constructor
  · simp only [apply_modifiers_scene, h2]
    rw [findObj_update _ oid (fun _ => (apply_modifiers_obj { o with selected := true }).1)
      (fun p _ => hrid) oid, h2]
    simp [hoid]
  · simp only [apply_modifiers_scene, h2]

theorem apply_modifiers_scene_frame {s : Scene} {oid pid : Nat} (hne : pid ≠ oid) :
    findObj (apply_modifiers_scene s oid).1 pid =
      (findObj s pid).map (fun o => { o with selected := false }) := by
  simp only [apply_modifiers_scene]
  cases hf2 : findObj (select_obj { deselect_all s with active := some oid } oid) oid with
  | none =>
    show findObj (select_obj { deselect_all s with active := some oid } oid) pid = _
    rw [findObj_select_other hne]
    show findObj (deselect_all s) pid = _
    exact findObj_deselect_all s pid
  | some o =>
    have hoid : o.id = oid := findObj_some_id hf2
    have hrid : ∀ p : Obj, p.id = oid → (apply_modifiers_obj o).1.id = oid := by
      intro p _
      rw [(apply_modifiers_obj_frame o).1]
      exact hoid
    rw [findObj_update_other hrid hne, findObj_select_other hne]
    show findObj (deselect_all s) pid = _
    exact findObj_deselect_all s pid

theorem apply_modifiers_scene_ids (s : Scene) (oid : Nat) :
    (apply_modifiers_scene s oid).1.objects.map Obj.id = s.objects.map Obj.id := by
  simp only [apply_modifiers_scene]
  cases hf2 : findObj (select_obj { deselect_all s with active := some oid } oid) oid with
  | none =>
    show (((s.objects.map (fun o => { o with selected := false })).map
        (fun o => if o.id = oid then { o with selected := true } else o)).map Obj.id) = _
    rw [map_ids_of_idpres (fun o => by by_cases h : o.id = oid <;> simp [h]),
      map_ids_of_idpres (fun o => by rfl)]
  | some o =>
    have hoid : o.id = oid := findObj_some_id hf2
    have hrid : ∀ p : Obj,
        (if p.id = oid then (apply_modifiers_obj o).1 else p).id = p.id := by
      intro p
      by_cases h : p.id = oid
      · rw [if_pos h, (apply_modifiers_obj_frame o).1, hoid, h]
      · rw [if_neg h]
    show ((((s.objects.map (fun o => { o with selected := false })).map
        (fun o => if o.id = oid then { o with selected := true } else o)).map
        (fun p => if p.id = oid then (apply_modifiers_obj o).1 else p)).map Obj.id) = _
    rw [map_ids_of_idpres hrid,
      map_ids_of_idpres (fun p => by by_cases h : p.id = oid <;> simp [h]),
      map_ids_of_idpres (fun p => by rfl)]

theorem applyAllLoop_step_found {s : Scene} {ns batch : List Nat} {oid : Nat} {p : Obj}
    (hfo : findObj s oid = some p) (hsk : p.data.shape_keys.isSome = false) :
    apply_all_modifiers_loop s ns (oid :: batch) =
      ((apply_all_modifiers_loop (apply_modifiers_scene s oid).1 ns batch).1,
        (apply_modifiers_scene s oid).2 ++
          (apply_all_modifiers_loop (apply_modifiers_scene s oid).1 ns batch).2.1,
        (apply_all_modifiers_loop (apply_modifiers_scene s oid).1 ns batch).2.2) := by
  simp [apply_all_modifiers_loop, hfo, hsk]

theorem applyAllLoop_step_aside {s : Scene} {ns batch : List Nat} {oid : Nat} {p : Obj}
    (hfo : findObj s oid = some p) (hsk : p.data.shape_keys.isSome = true) :
    apply_all_modifiers_loop s ns (oid :: batch) =
      apply_all_modifiers_loop s (ns ++ [oid]) batch := by
  simp [apply_all_modifiers_loop, hfo, hsk]

theorem applyAllLoop_step_missing {s : Scene} {ns batch : List Nat} {oid : Nat}
    (hfo : findObj s oid = none) :
    apply_all_modifiers_loop s ns (oid :: batch) = apply_all_modifiers_loop s ns batch := by
  simp [apply_all_modifiers_loop, hfo]

theorem applyAllLoop_frame : ∀ (batch : List Nat) (s : Scene) (ns : List Nat)
    {pid : Nat} {o : Obj}, pid ∉ batch → findObj s pid = some o →
    ∃ b, findObj (apply_all_modifiers_loop s ns batch).1 pid = some { o with selected := b } := by
  intro batch
  induction batch with
  | nil =>
    intro s ns pid o _ hf
    refine ⟨o.selected, ?_⟩
    show findObj s pid = some { o with selected := o.selected }
    exact hf
  | cons oid rest ih =>
    intro s ns pid o hnb hf
    have hne : pid ≠ oid := fun he => hnb (he ▸ List.mem_cons_self _ _)
    have hnr : pid ∉ rest := fun hr => hnb (List.mem_cons_of_mem _ hr)
    cases hfo : findObj s oid with
    | none =>
      rw [applyAllLoop_step_missing hfo]
      exact ih s ns hnr hf
    | some p =>
      cases hsk : p.data.shape_keys.isSome with
      | true =>
        rw [applyAllLoop_step_aside hfo hsk]
        exact ih s (ns ++ [oid]) hnr hf
      | false =>
        rw [applyAllLoop_step_found hfo hsk]
        have hf2 : findObj (apply_modifiers_scene s oid).1 pid =
            some { o with selected := false } := by
          rw [apply_modifiers_scene_frame hne, hf]
          rfl
        obtain ⟨b, hb⟩ := ih (apply_modifiers_scene s oid).1 ns hnr hf2
        exact ⟨b, hb⟩

theorem applyAllLoop_target : ∀ (batch : List Nat) (s : Scene) (ns : List Nat)
    (q : Obj) (b : Bool),
    (s.objects.map Obj.id).Nodup → batch.Nodup →
    findObj s q.id = some { q with selected := b } →
    q.id ∈ batch → q.data.shape_keys = none →
    ∃ q1 pre post,
      findObj (apply_all_modifiers_loop s ns batch).1 q.id = some q1 ∧
      q1.modifiers = (apply_modifiers_obj { q with selected := true }).1.modifiers ∧
      q1.data = (apply_modifiers_obj { q with selected := true }).1.data ∧
      (apply_all_modifiers_loop s ns batch).2.1 =
        pre ++ (apply_modifiers_obj { q with selected := true }).2 ++ post := by
  intro batch
  induction batch with
  | nil =>
    intro s ns q b _ _ _ hqb _
    cases hqb
  | cons oid rest ih =>
    intro s ns q b hnd hbnd hf hqb hq
    by_cases hoq : oid = q.id
    · subst hoq
      have hsk : ({ q with selected := b } : Obj).data.shape_keys.isSome = false := by
        show q.data.shape_keys.isSome = false
        rw [hq]
        rfl
      rw [applyAllLoop_step_found hf hsk]
      obtain ⟨ht1, ht2⟩ := apply_modifiers_scene_target hf
      have hnr : q.id ∉ rest := (List.nodup_cons.mp hbnd).1
      obtain ⟨b2, hb2⟩ := applyAllLoop_frame rest (apply_modifiers_scene s q.id).1 ns hnr ht1
      refine ⟨_, [], (apply_all_modifiers_loop (apply_modifiers_scene s q.id).1 ns rest).2.1,
        hb2, rfl, rfl, ?_⟩
      rw [ht2]
      rfl
    · have hne : q.id ≠ oid := fun he => hoq he.symm
      have hqr : q.id ∈ rest := by
        rcases List.mem_cons.mp hqb with h | h
        · exact absurd h.symm hoq
        · exact h
      have hbnd2 : rest.Nodup := (List.nodup_cons.mp hbnd).2
      cases hfo : findObj s oid with
      | none =>
        rw [applyAllLoop_step_missing hfo]
        exact ih s ns q b hnd hbnd2 hf hqr hq
      | some p =>
        cases hsk : p.data.shape_keys.isSome with
        | true =>
          rw [applyAllLoop_step_aside hfo hsk]
          exact ih s (ns ++ [oid]) q b hnd hbnd2 hf hqr hq
        | false =>
          rw [applyAllLoop_step_found hfo hsk]
          have hnd2 : ((apply_modifiers_scene s oid).1.objects.map Obj.id).Nodup := by
            rw [apply_modifiers_scene_ids]
            exact hnd
          have hf2 : findObj (apply_modifiers_scene s oid).1 q.id =
              some { q with selected := false } := by
            rw [apply_modifiers_scene_frame hne, hf]
            rfl
          obtain ⟨q1, pre, post, hfind, hm, hd, hreps⟩ :=
            ih (apply_modifiers_scene s oid).1 ns q false hnd2 hbnd2 hf2 hqr hq
          refine ⟨q1, (apply_modifiers_scene s oid).2 ++ pre, post, hfind, hm, hd, ?_⟩
          show (apply_modifiers_scene s oid).2 ++
            (apply_all_modifiers_loop (apply_modifiers_scene s oid).1 ns rest).2.1 = _
          rw [hreps, List.append_assoc, List.append_assoc, List.append_assoc]

theorem apply_all_modifiers_target {s : Scene} {batch : List Nat} {q : Obj}
    (hnd : (s.objects.map Obj.id).Nodup) (hbnd : batch.Nodup)
    (hmem : q ∈ s.objects) (hqb : q.id ∈ batch) (hq : q.data.shape_keys = none) :
    ∃ q1 pre post,
      findObj (apply_all_modifiers s batch).1 q.id = some q1 ∧
      q1.modifiers = (apply_modifiers_obj { q with selected := true }).1.modifiers ∧
      q1.data = (apply_modifiers_obj { q with selected := true }).1.data ∧
      (apply_all_modifiers s batch).2 =
        pre ++ (apply_modifiers_obj { q with selected := true }).2 ++ post := by
  have hf : findObj s q.id = some { q with selected := q.selected } :=
    findObj_nodup_self hnd hmem
  obtain ⟨q1, pre, post, hfind, hm, hd, hreps⟩ :=
    applyAllLoop_target batch s [] q q.selected hnd hbnd hf hqb hq
  have hsel : findObj (deselect_all (apply_all_modifiers_loop s [] batch).1) q.id =
      some { q1 with selected := false } := by
    rw [findObj_deselect_all, hfind]
    rfl
  have hfin : findObj (apply_all_modifiers s batch).1 q.id =
      some (if (apply_all_modifiers_loop s [] batch).2.2.contains q1.id = true
        then { q1 with selected := true } else { q1 with selected := false }) := by
    show findObj { deselect_all (apply_all_modifiers_loop s [] batch).1 with
        objects := (deselect_all (apply_all_modifiers_loop s [] batch).1).objects.map
          (fun o => if (apply_all_modifiers_loop s [] batch).2.2.contains o.id = true
            then { o with selected := true } else o) } q.id = _
    rw [findObj_map_scene (fun o => by split <;> rfl) q.id, hsel]
    rfl
  by_cases hc : (apply_all_modifiers_loop s [] batch).2.2.contains q1.id = true
  · rw [if_pos hc] at hfin
    exact ⟨{ q1 with selected := true }, pre, post, hfin, hm, hd, hreps⟩
  · rw [if_neg hc] at hfin
    exact ⟨{ q1 with selected := false }, pre, post, hfin, hm, hd, hreps⟩

/- ## Claim C2 -/

/-- Claim C2: failure policy of `apply_modifiers`.  For an object whose
stack may contain failing modifiers: the emitted diagnostics are exactly
one INFO (non-error) report per failing non-Armature modifier, naming the
modifier and the object; a failing modifier is never baked into the
geometry (only applicable non-Armature modifiers are, all of them, in
stack order) and is removed from the stack (only Armature modifiers
remain).  Moreover the failure is not fatal to the batch: inside
`apply_all_modifiers` the object is still processed to exactly this state
whatever happens elsewhere in the batch, and its diagnostics appear in the
batch report stream. -/
theorem apply_modifiers_failure_policy (s : Scene) (batch : List Nat) (q : Obj)
    (hnd : (s.objects.map Obj.id).Nodup) (hbnd : batch.Nodup)
    (hmem : q ∈ s.objects) (hqb : q.id ∈ batch)
    (hq : q.data.shape_keys = none)
    (hqnd : (q.modifiers.map Modifier.name).Nodup) :
    ((apply_modifiers_obj q).2 =
      ((clearSubsurfFlags q.modifiers).filter (fun m => !isArmatureMod m && !m.valid)).map
        (fun m => mkInvalidReport m q.name)) ∧
    (∀ r ∈ (apply_modifiers_obj q).2, r.level = ReportLevel.INFO) ∧
    (appliedMods (apply_modifiers_obj q).1.data.geo =
      appliedMods q.data.geo ++
        (clearSubsurfFlags q.modifiers).filter (fun m => !isArmatureMod m && m.valid)) ∧
    ((apply_modifiers_obj q).1.modifiers = q.modifiers.filter isArmatureMod) ∧
    ∃ q1 pre post,
      findObj (apply_all_modifiers s batch).1 q.id = some q1 ∧
      q1.modifiers = q.modifiers.filter isArmatureMod ∧
      appliedMods q1.data.geo =
        appliedMods q.data.geo ++
          (clearSubsurfFlags q.modifiers).filter (fun m => !isArmatureMod m && m.valid) ∧
      (apply_all_modifiers s batch).2 = pre ++ (apply_modifiers_obj q).2 ++ post := by
  obtain ⟨hs1, hs2, hs3⟩ := apply_modifiers_obj_spec q hqnd
  have hsel := apply_modifiers_obj_spec { q with selected := true } hqnd
  have hreq : (apply_modifiers_obj { q with selected := true }).2 =
      (apply_modifiers_obj q).2 := by
    rw [hsel.2.2, hs3]
  refine ⟨hs3, ?_, hs2, ?_, ?_⟩
  · intro r hr
    rw [hs3] at hr
    rcases List.mem_map.mp hr with ⟨m, _, rfl⟩
    rfl
  · rw [hs1, filter_arm_clear]
  · obtain ⟨q1, pre, post, hfind, hm, hd, hreps⟩ :=
      apply_all_modifiers_target hnd hbnd hmem hqb hq
    refine ⟨q1, pre, post, hfind, ?_, ?_, ?_⟩
    · rw [hm, hsel.1, filter_arm_clear]
    · rw [hd, hsel.2.1]
    · rw [hreps, hreq]

theorem apply_modifiers_failure_policy_witness :
    ∃ q1 pre post,
      findObj (apply_all_modifiers c2scene [1, 2]).1 c2obj2.id = some q1 ∧
      q1.modifiers = c2obj2.modifiers.filter isArmatureMod ∧
      appliedMods q1.data.geo =
        appliedMods c2obj2.data.geo ++
          (clearSubsurfFlags c2obj2.modifiers).filter (fun m => !isArmatureMod m && m.valid) ∧
      (apply_all_modifiers c2scene [1, 2]).2 =
        pre ++ (apply_modifiers_obj c2obj2).2 ++ post :=
  (apply_modifiers_failure_policy c2scene [1, 2] c2obj2 (by decide) (by decide)
    (by decide) (by decide) rfl (by decide)).2.2.2.2

theorem apply_modifiers_stack_exceptions_witness :
    appliedMods (apply_modifiers_obj c3obj).1.data.geo =
      appliedMods c3obj.data.geo ++
        (c3obj.modifiers.filter (fun m => !isArmatureMod m)).map clearSubsurfOne ∧
    (apply_modifiers_obj c3obj).1.modifiers = c3obj.modifiers.filter isArmatureMod :=
  ⟨(apply_modifiers_stack_exceptions c3obj (by decide) (by decide)).1,
   (apply_modifiers_stack_exceptions c3obj (by decide) (by decide)).2.1⟩

/- ## Claim C1: `apply_shapekey` on a valid index -/

theorem range_reverse_succ (t : Nat) :
    (List.range (t + 1)).reverse = t :: (List.range t).reverse := by
  rw [List.range_succ, List.reverse_append]
  rfl

theorem getElem?_append_mid {α : Type} (X Z : List α) (a : α) :
    (X ++ a :: Z)[X.length]? = some a := by
  induction X with
  | nil => simp
  | cons x xs ih => simpa using ih

theorem eraseIdx_append_mid {α : Type} (X Z : List α) (a : α) :
    (X ++ a :: Z).eraseIdx X.length = X ++ Z := by
  induction X with
  | nil => rfl
  | cons x xs ih =>
    show x :: (xs ++ a :: Z).eraseIdx xs.length = x :: (xs ++ Z)
    rw [ih]

theorem set_append_mid {α : Type} (X Z : List α) (a b : α) :
    (X ++ a :: Z).set X.length b = X ++ b :: Z := by
  induction X with
  | nil => rfl
  | cons x xs ih =>
    show x :: (xs ++ a :: Z).set xs.length b = x :: (xs ++ b :: Z)
    rw [ih]

theorem remove_other_keys_inv (L : List ShapeKey) (k : Nat) (hk : k < L.length) :
    ∀ (t : Nat), t ≤ L.length → ∀ (obj : Obj) (ks : Key),
    obj.data.shape_keys = some ks →
    ks.key_blocks = L.take t ++ (if t ≤ k then L[k]?.toList else []) →
    remove_other_keys obj (Int.ofNat k) (List.range t).reverse =
      { obj with data := { obj.data with shape_keys := some { ks with key_blocks := L[k]?.toList } } } := by
  intro t
  induction t with
  | zero =>
    intro _ obj ks hks hkb
    simp only [List.range_zero, List.reverse_nil, remove_other_keys]
    have h0 : ks.key_blocks = L[k]?.toList := by simpa using hkb
    have h1 : ({ ks with key_blocks := L[k]?.toList } : Key) = ks := by
      rw [← h0]
    rw [h1, ← hks]
  | succ t ih =>
    intro ht obj ks hks hkb
    have htl : t < L.length := Nat.lt_of_succ_le ht
    obtain ⟨a, ha⟩ : ∃ a, L[t]? = some a :=
      ⟨L[t], (List.getElem?_eq_some_iff).mpr ⟨htl, rfl⟩⟩
    obtain ⟨dk, hdk⟩ : ∃ dk, L[k]? = some dk :=
      ⟨L[k], (List.getElem?_eq_some_iff).mpr ⟨hk, rfl⟩⟩
    have hlen : (L.take t).length = t := by
      rw [List.length_take]
      exact Nat.min_eq_left (Nat.le_of_succ_le ht)
    rw [range_reverse_succ]
    by_cases htk : t = k
    · subst htk
      show remove_other_keys obj (Int.ofNat t) (t :: (List.range t).reverse) = _
      simp only [remove_other_keys, if_pos rfl]
      refine ih (Nat.le_of_succ_le ht) obj ks hks ?_
      rw [hkb, if_pos (Nat.le_refl t), if_neg (Nat.not_succ_le_self t), List.take_succ,
        List.append_nil]
    · have hco : ¬(Int.ofNat t = Int.ofNat k) := by
        intro he
        exact htk (Int.ofNat.inj he)
      show remove_other_keys obj (Int.ofNat k) (t :: (List.range t).reverse) = _
      simp only [remove_other_keys, if_neg hco]
      have hE : (if t + 1 ≤ k then L[k]?.toList else []) =
          (if t ≤ k then L[k]?.toList else []) := by
        by_cases h1 : t ≤ k
        · have h2 : t + 1 ≤ k := Nat.succ_le_of_lt (Nat.lt_of_le_of_ne h1 htk)
          rw [if_pos h1, if_pos h2]
        · have h2 : ¬(t + 1 ≤ k) := fun hh => h1 (Nat.le_of_succ_le hh)
          rw [if_neg h1, if_neg h2]
      have hcur : ks.key_blocks = L.take t ++ a :: (if t ≤ k then L[k]?.toList else []) := by
        rw [hkb, hE, List.take_succ, ha, List.append_assoc]
        rfl
      have hget : ks.key_blocks.get? t = some a := by
        have hx := getElem?_append_mid (L.take t) (if t ≤ k then L[k]?.toList else []) a
        rw [hlen] at hx
        rw [List.get?_eq_getElem?, hcur]
        exact hx
      have her : ks.key_blocks.eraseIdx t =
          L.take t ++ (if t ≤ k then L[k]?.toList else []) := by
        have hx := eraseIdx_append_mid (L.take t) (if t ≤ k then L[k]?.toList else []) a
        rw [hlen] at hx
        rw [hcur]
        exact hx
      have hne2 : (List.take t L ++ (if t ≤ k then L[k]?.toList else [])).isEmpty = false := by
        cases t with
        | zero =>
          have hk0 : 0 ≤ k := Nat.zero_le k
          rw [if_pos hk0, hdk]
          rfl
        | succ u =>
          have hul : u < L.length := Nat.lt_of_succ_lt (Nat.lt_of_succ_le ht)
          obtain ⟨au, hau⟩ : ∃ au, L[u]? = some au :=
            ⟨L[u], (List.getElem?_eq_some_iff).mpr ⟨hul, rfl⟩⟩
          rw [List.take_succ, hau]
          simp
      have hrm : shape_key_remove_at obj t =
          { obj with data := { obj.data with shape_keys := some { ks with key_blocks := L.take t ++ (if t ≤ k then L[k]?.toList else []) } } } := by
        simp only [shape_key_remove_at, hks, hget, her, hne2, Bool.false_eq_true, if_false]
      rw [hrm]
      exact ih (Nat.le_of_succ_le ht) _
        { ks with key_blocks := L.take t ++ (if t ≤ k then L[k]?.toList else []) } rfl rfl

theorem apply_shapekey_valid {obj : Obj} {ks : Key} {k : Nat} {d : ShapeKey}
    (hks : obj.data.shape_keys = some ks) (hd : ks.key_blocks[k]? = some d) :
    apply_shapekey obj (Int.ofNat k) =
      some { obj with data := { geo := d.data, shape_keys := none } } := by
  have hk : k < ks.key_blocks.length := (List.getElem?_eq_some_iff.mp hd).1
  have hguard : ¬(Int.ofNat k < 0 ∨ Int.ofNat k > Int.ofNat ks.key_blocks.length) := by
    intro h
    rcases h with h | h
    · exact absurd h (Int.not_lt.mpr (Int.ofNat_nonneg k))
    · exact absurd (Int.ofNat_lt.mp h) (Nat.lt_asymm hk)
  have hrm := remove_other_keys_inv ks.key_blocks k hk ks.key_blocks.length
    (Nat.le_refl _) obj ks hks
    (by rw [List.take_length, if_neg (Nat.not_le_of_lt hk), List.append_nil])
  simp only [apply_shapekey, hks, if_neg hguard, hrm, hd]
  show some (shape_key_remove_at _ 0) = _
  simp only [shape_key_remove_at]
  rfl

/- ## Claim C1: characterization of the scene steps of the donor loop -/

theorem copy_object_one (s : Scene) (obj : Obj) :
    ∃ nm : String, copy_object s obj 1 0 =
      ({ s with objects := s.objects ++ [{ obj with id := s.next_id, name := nm }], next_id := s.next_id + 1 },
        [{ obj with id := s.next_id, name := nm }]) := by
  refine ⟨obj.name ++ "_shapekey_" ++ toString (0 + 1), ?_⟩
  simp [copy_object, copy_object_loop]

theorem find?_append_fresh {l : List Obj} {c : Obj} {i : Nat} (hc : c.id = i)
    (hl : ∀ o ∈ l, o.id ≠ i) :
    (l ++ [c]).find? (fun o => o.id == i) = some c := by
  rw [List.find?_append]
  have h1 : l.find? (fun o => o.id == i) = none :=
    List.find?_eq_none.mpr (fun x hx => by simpa using hl x hx)
  rw [h1]
  simp [List.find?, hc]

theorem find?_append_left {l l2 : List Obj} {p : Obj → Bool} {q : Obj}
    (h : l.find? p = some q) :
    (l ++ l2).find? p = some q := by
  rw [List.find?_append, h]
  rfl

theorem map_update_fresh {l : List Obj} {cid : Nat} {f : Obj → Obj}
    (hl : ∀ o ∈ l, o.id ≠ cid) :
    l.map (fun o => if o.id = cid then f o else o) = l := by
  have h : l.map (fun o => if o.id = cid then f o else o) = l.map id :=
    List.map_congr_left (fun o ho => by rw [if_neg (hl o ho)]; rfl)
  rw [h, List.map_id]

theorem apply_modifiers_scene_objects {s : Scene} {oid : Nat} {o : Obj}
    (hf : findObj s oid = some o) :
    (apply_modifiers_scene s oid).1.objects = s.objects.map (fun p =>
      if p.id = oid then (apply_modifiers_obj { o with selected := true }).1
      else { p with selected := false }) := by
  have hoid : o.id = oid := findObj_some_id hf
  have h1 : findObj { deselect_all s with active := some oid } oid =
      some { o with selected := false } := by
    show findObj (deselect_all s) oid = _
    rw [findObj_deselect_all, hf]
    rfl
  have h2 : findObj (select_obj { deselect_all s with active := some oid } oid) oid =
      some { o with selected := true } := by
    unfold select_obj
    rw [findObj_update _ oid (fun p => { p with selected := true }) (fun p hp => hp) oid, h1]
    simp [hoid]
  simp only [apply_modifiers_scene, h2]
  show ((s.objects.map (fun p => { p with selected := false })).map
      (fun p => if p.id = oid then { p with selected := true } else p)).map
      (fun p => if p.id = oid then (apply_modifiers_obj { o with selected := true }).1
        else p) = _
  rw [List.map_map, List.map_map]
  apply List.map_congr_left
  intro p _
  by_cases h : p.id = oid
  · simp [Function.comp, h]
  · simp [Function.comp, h]

theorem apply_modifiers_scene_misc (s : Scene) (oid : Nat) :
    (apply_modifiers_scene s oid).1.armatures = s.armatures ∧
    (apply_modifiers_scene s oid).1.next_id = s.next_id ∧
    (apply_modifiers_scene s oid).1.frame_current = s.frame_current := by
  simp only [apply_modifiers_scene]
  cases findObj (select_obj { deselect_all s with active := some oid } oid) oid with
  | none => exact ⟨rfl, rfl, rfl⟩
  | some o => exact ⟨rfl, rfl, rfl⟩

theorem join_shapes_obj_none {dest src : Obj} (h : dest.data.shape_keys = none) :
    join_shapes_obj dest src = { dest with data := { dest.data with shape_keys := some { name := "Key", key_blocks := [basisKeyFrom dest, newKeyFrom src], animation_data := none, keyframes := [] } } } := by
  simp only [join_shapes_obj, h]

theorem join_shapes_obj_some {dest src : Obj} {ks : Key} (h : dest.data.shape_keys = some ks) :
    join_shapes_obj dest src = { dest with data := { dest.data with shape_keys := some { ks with key_blocks := ks.key_blocks ++ [newKeyFrom src] } } } := by
  simp only [join_shapes_obj, h]

theorem join_shapes_obj_id (dest src : Obj) : (join_shapes_obj dest src).id = dest.id := by
  unfold join_shapes_obj
  cases dest.data.shape_keys <;> rfl

theorem add_objs_shapekeys_spec {s : Scene} {destId srcId : Nat} {src : Obj}
    (hsrc : findObj s srcId = some src) (hne : destId ≠ srcId) :
    add_objs_shapekeys s destId [srcId] =
      { s with
        objects := s.objects.map (fun p =>
          if p.id = srcId then { p with selected := true }
          else if p.id = destId then
            join_shapes_obj { p with selected := false } { src with selected := true }
          else { p with selected := false }),
        active := some destId } := by
  have hsid : src.id = srcId := findObj_some_id hsrc
  have h1 : findObj (deselect_all s) srcId = some { src with selected := false } := by
    rw [findObj_deselect_all, hsrc]
    rfl
  have h2 : findObj (select_obj (deselect_all s) srcId) srcId =
      some { src with selected := true } := by
    unfold select_obj
    rw [findObj_update _ srcId (fun p => { p with selected := true }) (fun p hp => hp) srcId, h1]
    simp [hsid]
  have h3 : findObj { select_obj (deselect_all s) srcId with active := some destId } srcId =
      some { src with selected := true } := h2
  have hobjs : ((s.objects.map (fun p => { p with selected := false })).map
        (fun p => if p.id = srcId then { p with selected := true } else p)).map
        (fun p => if p.id = destId then join_shapes_obj p { src with selected := true } else p) =
      s.objects.map (fun p =>
        if p.id = srcId then { p with selected := true }
        else if p.id = destId then
          join_shapes_obj { p with selected := false } { src with selected := true }
        else { p with selected := false }) := by
    rw [List.map_map, List.map_map]
    apply List.map_congr_left
    intro p _
    by_cases hps : p.id = srcId
    · simp [Function.comp, hps, Ne.symm hne]
    · by_cases hpd : p.id = destId
      · simp [Function.comp, hps, hpd, hne]
      · simp [Function.comp, hps, hpd]
  simp only [add_objs_shapekeys, List.foldl]
  rw [h3]
  exact congrArg (fun l => { s with objects := l, active := some destId }) hobjs

theorem Scene.ext_manual {a b : Scene} (h1 : a.objects = b.objects)
    (h2 : a.armatures = b.armatures) (h3 : a.active = b.active)
    (h4 : a.frame_current = b.frame_current) (h5 : a.next_id = b.next_id) : a = b := by
  cases a
  cases b
  simp_all

theorem sel_false_eq_self {p : Obj} (h : p.selected = false) :
    ({ p with selected := false } : Obj) = p := by
  cases p
  simp_all

theorem skFieldsEq_restore (nk d : ShapeKey) : skFieldsEq (restore_sk_fields nk d) d :=
  ⟨rfl, rfl, rfl, rfl, rfl, rfl, rfl, rfl⟩

/-- One pass of the donor loop on a scene of the invariant shape
`M ++ [receiver]`: the donor copy is created, baked to key `t`, its geometry
joined onto the receiver as key index `t`, the metadata of key `t` restored
from the original key `d`, and the donor deleted again. -/
theorem withSkIterBody_spec {oid rid t : Nat} {M : List Obj} {o1 recv : Obj} {oks : Key}
    {d : ShapeKey} {curr : List ShapeKey} {s : Scene}
    (hMfind : M.find? (fun p => p.id == oid) = some o1)
    (hoks : o1.data.shape_keys = some oks)
    (hd : oks.key_blocks[t]? = some d)
    (hMrid : ∀ p ∈ M, p.id < rid)
    (hMsel : ∀ p ∈ M, p.selected = false)
    (hobjs : s.objects = M ++ [recv])
    (hrid : recv.id = rid)
    (hnext : rid < s.next_id)
    (hjoin : ∀ src : Obj, ∃ K : Key,
      join_shapes_obj { recv with selected := false } src =
        { recv with selected := false, data := { recv.data with shape_keys := some K } } ∧
      K.key_blocks = curr ++ [newKeyFrom src])
    (hlen : curr.length = t) :
    ∃ (reps : List Report) (nk : ShapeKey) (K1 : Key),
      withSkIterBody s oid rid t = some
        ({ s with objects := M ++ [{ recv with selected := false, data := { recv.data with shape_keys := some K1 } }], next_id := s.next_id + 1, active := some rid }, reps) ∧
      K1.key_blocks = curr ++ [restore_sk_fields nk d] := by
  obtain ⟨nm, hcopy⟩ := copy_object_one s o1
  have hfo : findObj s oid = some o1 := by
    show s.objects.find? (fun p => p.id == oid) = some o1
    rw [hobjs]
    exact find?_append_left hMfind
  have hget : oks.key_blocks.get? t = some d := by
    rw [List.get?_eq_getElem?]
    exact hd
  set b0 : Obj := { o1 with id := s.next_id, name := nm } with hb0def
  have hb0id : b0.id = s.next_id := by rw [hb0def]
  have hb0ks : b0.data.shape_keys = some oks := hoks
  have happ : apply_shapekey b0 (Int.ofNat t) =
      some { b0 with data := { geo := d.data, shape_keys := none } } :=
    apply_shapekey_valid hb0ks hd
  set b1 : Obj := { b0 with data := { geo := d.data, shape_keys := none } } with hb1def
  have hb1id : b1.id = s.next_id := by rw [hb1def]
  set S1 : Scene := { s with objects := s.objects ++ [b0], next_id := s.next_id + 1 } with hS1def
  have h2ids : ∀ p ∈ M ++ [recv], p.id ≠ s.next_id := by
    intro p hp
    rcases List.mem_append.mp hp with h | h
    · exact Nat.ne_of_lt (Nat.lt_trans (hMrid p h) hnext)
    · rcases List.mem_singleton.mp h with rfl
      rw [hrid]
      exact Nat.ne_of_lt hnext
  have hids : ∀ p ∈ s.objects, p.id ≠ s.next_id := by
    rw [hobjs]
    exact h2ids
  have hs2 : (updateObjById S1 s.next_id (fun _ => b1)).objects = (M ++ [recv]) ++ [b1] := by
    show (s.objects ++ [b0]).map (fun o => if o.id = s.next_id then b1 else o) = _
    rw [List.map_append, map_update_fresh hids, hobjs]
    simp [hb0id]
  have hfb : findObj (updateObjById S1 s.next_id (fun _ => b1)) s.next_id = some b1 := by
    show (updateObjById S1 s.next_id (fun _ => b1)).objects.find?
      (fun o => o.id == s.next_id) = some b1
    rw [hs2]
    exact find?_append_fresh hb1id h2ids
  set B2 : Obj := (apply_modifiers_obj { b1 with selected := true }).1 with hB2def
  have hB2id : B2.id = s.next_id := by
    have h := (apply_modifiers_obj_frame { b1 with selected := true }).1
    rw [hB2def, h]
  have hs3objs : (apply_modifiers_scene (updateObjById S1 s.next_id (fun _ => b1)) s.next_id).1.objects =
      (M ++ [{ recv with selected := false }]) ++ [B2] := by
    rw [apply_modifiers_scene_objects hfb, hs2, List.map_append, List.map_append]
    congr 1
    · congr 1
      · refine (List.map_congr_left ?_).trans (List.map_id M)
        intro p hp
        rw [if_neg (Nat.ne_of_lt (Nat.lt_trans (hMrid p hp) hnext))]
        exact sel_false_eq_self (hMsel p hp)
      · simp only [List.map_cons, List.map_nil]
        rw [if_neg (show ¬(recv.id = s.next_id) from by rw [hrid]; exact Nat.ne_of_lt hnext)]
    · simp [hB2def]
  have h3ids : ∀ p ∈ M ++ [{ recv with selected := false }], p.id ≠ s.next_id := by
    intro p hp
    rcases List.mem_append.mp hp with h | h
    · exact Nat.ne_of_lt (Nat.lt_trans (hMrid p h) hnext)
    · rcases List.mem_singleton.mp h with rfl
      show recv.id ≠ s.next_id
      rw [hrid]
      exact Nat.ne_of_lt hnext
  have hsrc4 : findObj (apply_modifiers_scene (updateObjById S1 s.next_id (fun _ => b1)) s.next_id).1 s.next_id = some B2 := by
    show (apply_modifiers_scene (updateObjById S1 s.next_id (fun _ => b1)) s.next_id).1.objects.find? (fun o => o.id == s.next_id) = some B2
    rw [hs3objs]
    exact find?_append_fresh hB2id h3ids
  obtain ⟨K, hK, hKkb⟩ := hjoin { B2 with selected := true }
  set J : Obj := { recv with selected := false, data := { recv.data with shape_keys := some K } } with hJdef
  have hs4pre := add_objs_shapekeys_spec hsrc4 (Nat.ne_of_lt hnext)
  set S4 : Scene := { (apply_modifiers_scene (updateObjById S1 s.next_id (fun _ => b1)) s.next_id).1 with objects := (M ++ [J]) ++ [{ B2 with selected := true }], active := some rid } with hS4def
  have hs4 : add_objs_shapekeys (apply_modifiers_scene (updateObjById S1 s.next_id (fun _ => b1)) s.next_id).1 rid [s.next_id] = S4 := by
    rw [hs4pre, hS4def]
    congr 1
    rw [hs3objs, List.map_append, List.map_append]
    congr 1
    · congr 1
      · refine (List.map_congr_left ?_).trans (List.map_id M)
        intro p hp
        rw [if_neg (Nat.ne_of_lt (Nat.lt_trans (hMrid p hp) hnext)),
          if_neg (Nat.ne_of_lt (hMrid p hp))]
        exact sel_false_eq_self (hMsel p hp)
      · simp only [List.map_cons, List.map_nil]
        rw [if_neg (show ¬(recv.id = s.next_id) from by rw [hrid]; exact Nat.ne_of_lt hnext),
          if_pos (show recv.id = rid from hrid)]
        show [join_shapes_obj { recv with selected := false } { B2 with selected := true }] = [J]
        rw [hK, hJdef]
    · simp only [List.map_cons, List.map_nil]
      rw [if_pos hB2id]
  have hJsk : J.data.shape_keys = some K := by rw [hJdef]
  have hMnone : M.find? (fun o => o.id == rid) = none :=
    List.find?_eq_none.mpr fun p hp => by simp [Nat.ne_of_lt (hMrid p hp)]
  have hfind5 : findObj S4 rid = some J := by
    rw [hS4def]
    show ((M ++ [J]) ++ [{ B2 with selected := true }]).find? (fun o => o.id == rid) = some J
    rw [List.find?_append, List.find?_append, hMnone]
    rw [hJdef]
    simp [List.find?, hrid]
  have hsk : K.key_blocks.get? t = some (newKeyFrom { B2 with selected := true }) := by
    rw [List.get?_eq_getElem?, hKkb, ← hlen]
    exact getElem?_append_mid curr [] _
  set K1 : Key := { K with key_blocks := K.key_blocks.set t (restore_sk_fields (newKeyFrom { B2 with selected := true }) d) } with hK1def
  have hK1kb : K1.key_blocks = curr ++ [restore_sk_fields (newKeyFrom { B2 with selected := true }) d] := by
    rw [hK1def]
    show K.key_blocks.set t _ = _
    rw [hKkb, ← hlen]
    exact set_append_mid curr [] _ _
  have hMmap : M.map (fun o : Obj => if o.id = rid then { o with data := { o.data with shape_keys := some K1 } } else o) = M := by
    refine (List.map_congr_left ?_).trans (List.map_id M)
    intro p hp
    rw [if_neg (Nat.ne_of_lt (hMrid p hp))]
    rfl
  have hMfilt : M.filter (fun o => o.id != s.next_id) = M :=
    List.filter_eq_self.mpr fun p hp => by
      simp [Nat.ne_of_lt (Nat.lt_trans (hMrid p hp) hnext)]
  have hfilter : (updateObjById S4 rid (fun r => { r with data := { r.data with shape_keys := some K1 } })).objects.filter (fun o => o.id != s.next_id) = M ++ [{ recv with selected := false, data := { recv.data with shape_keys := some K1 } }] := by
    rw [hS4def]
    show ((((M ++ [J]) ++ [{ B2 with selected := true }]).map (fun o : Obj => if o.id = rid then { o with data := { o.data with shape_keys := some K1 } } else o)).filter (fun o : Obj => o.id != s.next_id)) = _
    rw [List.map_append, List.map_append, hMmap, List.filter_append, List.filter_append, hMfilt]
    rw [hJdef]
    simp [hrid, hB2id, Nat.ne_of_lt hnext, Ne.symm (Nat.ne_of_lt hnext)]
  refine ⟨(apply_modifiers_scene (updateObjById S1 s.next_id (fun _ => b1)) s.next_id).2,
    newKeyFrom { B2 with selected := true }, K1, ?_, hK1kb⟩
  have hred : withSkIterBody s oid rid t =
      some ({ updateObjById S4 rid (fun r => { r with data := { r.data with shape_keys := some K1 } }) with objects := M ++ [{ recv with selected := false, data := { recv.data with shape_keys := some K1 } }] }, (apply_modifiers_scene (updateObjById S1 s.next_id (fun _ => b1)) s.next_id).2) := by
    simp only [withSkIterBody, hfo, hoks, hget, hcopy, hb0id, happ, hs4, hfind5, hJsk, hsk,
      ← hK1def, hfilter]
  rw [hred]
  refine congrArg (fun sc => some (sc, (apply_modifiers_scene (updateObjById S1 s.next_id (fun _ => b1)) s.next_id).2)) ?_
  refine Scene.ext_manual rfl ?_ ?_ ?_ ?_
  · exact (apply_modifiers_scene_misc (updateObjById S1 s.next_id (fun _ => b1)) s.next_id).1
  · rfl
  · exact (apply_modifiers_scene_misc (updateObjById S1 s.next_id (fun _ => b1)) s.next_id).2.2
  · exact (apply_modifiers_scene_misc (updateObjById S1 s.next_id (fun _ => b1)) s.next_id).2.1

/-- The donor loop `for i in range(1, N)` over indices `[t, t + cnt)`
maintains the receiver invariant: the receiver's key-block list grows to
length `t + cnt` and every non-basis index below `t + cnt` carries the
original key's metadata. -/
theorem withSkLoop_spec {oid rid : Nat} {M : List Obj} {o1 : Obj} {oks : Key}
    (hMfind : M.find? (fun p => p.id == oid) = some o1)
    (hoks : o1.data.shape_keys = some oks)
    (hMrid : ∀ p ∈ M, p.id < rid)
    (hMsel : ∀ p ∈ M, p.selected = false) :
    ∀ (cnt t : Nat) (s : Scene) (reps : List Report) (recv : Obj) (curr : List ShapeKey),
      s.objects = M ++ [recv] →
      recv.id = rid →
      rid < s.next_id →
      (∀ src : Obj, ∃ K : Key,
        join_shapes_obj { recv with selected := false } src =
          { recv with selected := false, data := { recv.data with shape_keys := some K } } ∧
        K.key_blocks = curr ++ [newKeyFrom src]) →
      curr.length = t →
      t + cnt ≤ oks.key_blocks.length →
      (2 ≤ t → ∃ rks : Key, recv.data.shape_keys = some rks ∧ rks.key_blocks = curr) →
      (∀ j, 1 ≤ j → j < t → ∃ e dj, curr[j]? = some e ∧ oks.key_blocks[j]? = some dj ∧ skFieldsEq e dj) →
      ∃ (s2 : Scene) (reps2 : List Report) (recv2 : Obj) (curr2 : List ShapeKey),
        withSkLoop oid rid s reps (List.range' t cnt) = some (s2, reps2) ∧
        s2.objects = M ++ [recv2] ∧
        recv2.id = rid ∧
        rid < s2.next_id ∧
        (∀ src : Obj, ∃ K : Key,
          join_shapes_obj { recv2 with selected := false } src =
            { recv2 with selected := false, data := { recv2.data with shape_keys := some K } } ∧
          K.key_blocks = curr2 ++ [newKeyFrom src]) ∧
        curr2.length = t + cnt ∧
        (2 ≤ t + cnt → ∃ rks : Key, recv2.data.shape_keys = some rks ∧ rks.key_blocks = curr2) ∧
        (∀ j, 1 ≤ j → j < t + cnt → ∃ e dj, curr2[j]? = some e ∧ oks.key_blocks[j]? = some dj ∧ skFieldsEq e dj) := by
  intro cnt
  induction cnt with
  | zero =>
    intro t s reps recv curr hobjs hrid hnext hjoin hlen hbound hstart hinv
    exact ⟨s, reps, recv, curr, rfl, hobjs, hrid, hnext, hjoin, by simpa using hlen,
      by simpa using hstart, by simpa using hinv⟩
  | succ n ih =>
    intro t s reps recv curr hobjs hrid hnext hjoin hlen hbound hstart hinv
    have ht : t < oks.key_blocks.length := by omega
    have hd := List.getElem?_eq_getElem ht
    obtain ⟨reps1, nk, K1, hbody, hK1⟩ :=
      withSkIterBody_spec hMfind hoks hd hMrid hMsel hobjs hrid hnext hjoin hlen
    set R : Obj := { recv with selected := false, data := { recv.data with shape_keys := some K1 } } with hRdef
    have hRid : R.id = rid := by rw [hRdef]; exact hrid
    have hRsk : R.data.shape_keys = some K1 := by rw [hRdef]
    have hjoin2 : ∀ src : Obj, ∃ K : Key,
        join_shapes_obj { R with selected := false } src =
          { R with selected := false, data := { R.data with shape_keys := some K } } ∧
        K.key_blocks = (curr ++ [restore_sk_fields nk (oks.key_blocks[t])]) ++ [newKeyFrom src] := by
      intro src
      refine ⟨{ K1 with key_blocks := K1.key_blocks ++ [newKeyFrom src] }, ?_, ?_⟩
      · exact join_shapes_obj_some (show ({ R with selected := false } : Obj).data.shape_keys = some K1 from hRsk)
      · show K1.key_blocks ++ [newKeyFrom src] = _
        rw [hK1]
    have hinv2 : ∀ j, 1 ≤ j → j < t + 1 →
        ∃ e dj, (curr ++ [restore_sk_fields nk (oks.key_blocks[t])])[j]? = some e ∧
          oks.key_blocks[j]? = some dj ∧ skFieldsEq e dj := by
      intro j h1 h2
      by_cases hj : j < t
      · obtain ⟨e, dj, he, hdj, hfe⟩ := hinv j h1 hj
        exact ⟨e, dj, by rw [List.getElem?_append_left (by omega)]; exact he, hdj, hfe⟩
      · have hjt : j = t := by omega
        have hmid : (curr ++ [restore_sk_fields nk (oks.key_blocks[t])])[j]? =
            some (restore_sk_fields nk (oks.key_blocks[t])) := by
          have h2 : j = curr.length := by omega
          subst h2
          exact getElem?_append_mid curr [] _
        refine ⟨restore_sk_fields nk (oks.key_blocks[t]), oks.key_blocks[t], hmid, ?_,
          skFieldsEq_restore _ _⟩
        rw [hjt]
        exact hd
    obtain ⟨s2, reps2, recv2, curr2, hloop, ho2, hi2, hn2, hj2, hl2, hc2, hv2⟩ :=
      ih (t + 1) { s with objects := M ++ [R], next_id := s.next_id + 1, active := some rid }
        (reps ++ reps1) R (curr ++ [restore_sk_fields nk (oks.key_blocks[t])])
        rfl hRid (Nat.lt_succ_of_lt hnext) hjoin2 (by simp [hlen]) (by omega)
        (fun _ => ⟨K1, hRsk, hK1⟩) hinv2
    refine ⟨s2, reps2, recv2, curr2, ?_, ho2, hi2, hn2, hj2, by omega, ?_, ?_⟩
    · rw [List.range'_succ]
      simp only [withSkLoop, hbody]
      exact hloop
    · intro h
      exact hc2 (by omega)
    · intro j h1 h2
      exact hv2 j h1 (by omega)

theorem filter_maps_untouched {α : Type} {f g h k : α → α} {p : α → Bool} :
    ∀ l : List α,
      (∀ q ∈ l, p q = true → k (h (g (f q))) = q) →
      (∀ q ∈ l, p (g (f q)) = p q) →
      ((((l.map f).map g).filter p).map h).map k = l.filter p := by
  intro l
  induction l with
  | nil => intro _ _; rfl
  | cons a t ih =>
    intro hun hp
    have hstep := hp a (List.mem_cons_self a t)
    cases hpa : p a with
    | true =>
      rw [List.map_cons, List.map_cons,
        List.filter_cons_of_pos (by rw [hstep]; exact hpa),
        List.map_cons, List.map_cons,
        hun a (List.mem_cons_self a t) hpa,
        List.filter_cons_of_pos hpa,
        ih (fun q hq hh => hun q (List.mem_cons_of_mem a hq) hh)
          (fun q hq => hp q (List.mem_cons_of_mem a hq))]
    | false =>
      rw [List.map_cons, List.map_cons,
        List.filter_cons_of_neg (by rw [hstep, hpa]; simp),
        List.filter_cons_of_neg (by rw [hpa]; simp)]
      exact ih (fun q hq hh => hun q (List.mem_cons_of_mem a hq) hh)
        (fun q hq => hp q (List.mem_cons_of_mem a hq))

theorem animation_data_create_fields (ks : Key) :
    (animation_data_create ks).key_blocks = ks.key_blocks ∧
    (animation_data_create ks).name = ks.name := by
  unfold animation_data_create
  cases ks.animation_data <;> exact ⟨rfl, rfl⟩

theorem transfer_animation_fields (a b : Key) :
    (transfer_animation a b).1.key_blocks = a.key_blocks ∧
    (transfer_animation a b).2.key_blocks = b.key_blocks ∧
    (transfer_animation a b).2.name = b.name := by
  simp only [transfer_animation]
  cases hA : (animation_data_create a).animation_data <;>
    cases hB : (animation_data_create b).animation_data <;>
    exact ⟨(animation_data_create_fields a).1, (animation_data_create_fields b).1,
      (animation_data_create_fields b).2⟩

/-- `process_obj_with_sk` on an object with at least two shape keys: the
original object is deleted, every other object is deselected, and a single
receiver object appears at the end of the scene's object list, carrying the
original's name, a shape-key datablock named `<name>.SK` of the same length
whose non-basis keys carry the original keys' metadata. -/
theorem process_obj_with_sk_spec {s : Scene} {oid : Nat} {o : Obj} {oks : Key}
    (hwf : sceneWF s)
    (ho : findObj s oid = some o)
    (hoks : o.data.shape_keys = some oks)
    (hN : 2 ≤ oks.key_blocks.length) :
    ∃ (s2 : Scene) (reps : List Report) (recvF : Obj) (rksF : Key),
      process_obj_with_sk s oid = some (s2, reps) ∧
      s2.objects = (s.objects.map (fun q : Obj => { q with selected := false })).filter (fun q : Obj => q.id != oid) ++ [recvF] ∧
      recvF.id = s.next_id ∧
      s.next_id < s2.next_id ∧
      recvF.name = o.name ∧
      recvF.data.shape_keys = some rksF ∧
      rksF.name = o.name ++ ".SK" ∧
      rksF.key_blocks.length = oks.key_blocks.length ∧
      (∀ j, 1 ≤ j → j < oks.key_blocks.length →
        ∃ e dj, rksF.key_blocks[j]? = some e ∧ oks.key_blocks[j]? = some dj ∧ skFieldsEq e dj) := by
  have hoid : o.id = oid := findObj_some_id ho
  have homem : o ∈ s.objects := List.mem_of_find?_eq_some ho
  have hoidlt : oid < s.next_id := hoid ▸ hwf.2 o homem
  have hids : ∀ p ∈ s.objects, p.id ≠ s.next_id := fun p hp => Nat.ne_of_lt (hwf.2 p hp)
  obtain ⟨nm, hcopy⟩ := copy_object_one s o
  set b0 : Obj := { o with id := s.next_id, name := nm } with hb0def
  have hb0id : b0.id = s.next_id := by rw [hb0def]
  set S1 : Scene := { s with objects := s.objects ++ [b0], next_id := s.next_id + 1 } with hS1def
  set b1 : Obj := { b0 with name := "sk_receiver" } with hb1def
  have hb1id : b1.id = s.next_id := by rw [hb1def, hb0def]
  have hb1ks : b1.data.shape_keys = some oks := hoks
  have hs2 : (updateObjById S1 s.next_id (fun r => { r with name := "sk_receiver" })).objects =
      s.objects ++ [b1] := by
    show (s.objects ++ [b0]).map (fun p : Obj => if p.id = s.next_id then { p with name := "sk_receiver" } else p) = _
    rw [List.map_append, map_update_fresh hids]
    simp [hb0id, hb1def]
  have hfb1 : findObj (updateObjById S1 s.next_id (fun r => { r with name := "sk_receiver" })) s.next_id = some b1 := by
    show (updateObjById S1 s.next_id (fun r => { r with name := "sk_receiver" })).objects.find? (fun p => p.id == s.next_id) = some b1
    rw [hs2]
    exact find?_append_fresh hb1id hids
  obtain ⟨k0, h0⟩ : ∃ a, oks.key_blocks[0]? = some a :=
    ⟨_, List.getElem?_eq_getElem (by omega)⟩
  have happ0 : apply_shapekey b1 0 = some { b1 with data := { geo := k0.data, shape_keys := none } } :=
    apply_shapekey_valid hb1ks h0
  set b2 : Obj := { b1 with data := { geo := k0.data, shape_keys := none } } with hb2def
  have hb2id : b2.id = s.next_id := by rw [hb2def, hb1def, hb0def]
  have hs3 : (updateObjById (updateObjById S1 s.next_id (fun r => { r with name := "sk_receiver" })) s.next_id (fun _ => b2)).objects = s.objects ++ [b2] := by
    show (updateObjById S1 s.next_id (fun r => { r with name := "sk_receiver" })).objects.map (fun p : Obj => if p.id = s.next_id then b2 else p) = _
    rw [hs2, List.map_append, map_update_fresh hids]
    simp [hb1id]
  have hfb2 : findObj (updateObjById (updateObjById S1 s.next_id (fun r => { r with name := "sk_receiver" })) s.next_id (fun _ => b2)) s.next_id = some b2 := by
    show (updateObjById (updateObjById S1 s.next_id (fun r => { r with name := "sk_receiver" })) s.next_id (fun _ => b2)).objects.find? (fun p => p.id == s.next_id) = some b2
    rw [hs3]
    exact find?_append_fresh hb2id hids
  set M : List Obj := s.objects.map (fun q : Obj => { q with selected := false }) with hMdef
  set B : Obj := (apply_modifiers_obj { b2 with selected := true }).1 with hBdef
  have hBid : B.id = s.next_id := by
    have h := (apply_modifiers_obj_frame { b2 with selected := true }).1
    rw [hBdef, h]
  have hBsk : B.data.shape_keys = none := by
    have h := (apply_modifiers_obj_frame { b2 with selected := true }).2.2.2.2.2
    rw [hBdef, h]
  have hs4objs : (apply_modifiers_scene (updateObjById (updateObjById S1 s.next_id (fun r => { r with name := "sk_receiver" })) s.next_id (fun _ => b2)) s.next_id).1.objects = M ++ [B] := by
    rw [apply_modifiers_scene_objects hfb2, hs3, List.map_append]
    congr 1
    · rw [hMdef]
      apply List.map_congr_left
      intro p hp
      rw [if_neg (hids p hp)]
    · simp [hBdef]
  have hMfind : M.find? (fun p => p.id == oid) = some { o with selected := false } := by
    rw [hMdef]
    rw [find_map_idpres s.objects (fun q => { q with selected := false }) (fun q => rfl) oid]
    show (findObj s oid).map _ = _
    rw [ho]
    rfl
  have hMrid : ∀ p ∈ M, p.id < s.next_id := by
    rw [hMdef]
    intro p hp
    obtain ⟨q, hq, rfl⟩ := List.mem_map.mp hp
    exact hwf.2 q hq
  have hMsel : ∀ p ∈ M, p.selected = false := by
    rw [hMdef]
    intro p hp
    obtain ⟨q, hq, rfl⟩ := List.mem_map.mp hp
    rfl
  have hnext0 : s.next_id < (apply_modifiers_scene (updateObjById (updateObjById S1 s.next_id (fun r => { r with name := "sk_receiver" })) s.next_id (fun _ => b2)) s.next_id).1.next_id := by
    rw [(apply_modifiers_scene_misc (updateObjById (updateObjById S1 s.next_id (fun r => { r with name := "sk_receiver" })) s.next_id (fun _ => b2)) s.next_id).2.1]
    exact Nat.lt_succ_self s.next_id
  have hjoin0 : ∀ src : Obj, ∃ K : Key,
      join_shapes_obj { B with selected := false } src =
        { B with selected := false, data := { B.data with shape_keys := some K } } ∧
      K.key_blocks = [basisKeyFrom { B with selected := false }] ++ [newKeyFrom src] := by
    intro src
    refine ⟨{ name := "Key", key_blocks := [basisKeyFrom { B with selected := false }, newKeyFrom src], animation_data := none, keyframes := [] }, ?_, rfl⟩
    exact join_shapes_obj_none (show ({ B with selected := false } : Obj).data.shape_keys = none from hBsk)
  obtain ⟨s5, reps5, recv5, curr5, hloop, ho5, hi5, hn5, hj5, hl5, hc5, hv5⟩ :=
    withSkLoop_spec hMfind hoks hMrid hMsel (oks.key_blocks.length - 1) 1
      (apply_modifiers_scene (updateObjById (updateObjById S1 s.next_id (fun r => { r with name := "sk_receiver" })) s.next_id (fun _ => b2)) s.next_id).1
      (apply_modifiers_scene (updateObjById (updateObjById S1 s.next_id (fun r => { r with name := "sk_receiver" })) s.next_id (fun _ => b2)) s.next_id).2
      B [basisKeyFrom { B with selected := false }]
      hs4objs hBid hnext0 hjoin0 rfl (by omega)
      (fun h => absurd h (by omega)) (fun j h1 h2 => absurd h2 (by omega))
  obtain ⟨rks5, hrsk5, hrkb5⟩ := hc5 (by omega)
  have hlen5 : curr5.length = oks.key_blocks.length := by omega
  have hfind_o5 : findObj s5 oid = some { o with selected := false } := by
    show s5.objects.find? (fun p => p.id == oid) = _
    rw [ho5]
    exact find?_append_left hMfind
  have hfind_r5 : findObj s5 s.next_id = some recv5 := by
    show s5.objects.find? (fun p => p.id == s.next_id) = some recv5
    rw [ho5]
    exact find?_append_fresh hi5 (fun p hp => Nat.ne_of_lt (hMrid p hp))
  obtain ⟨ka, kr, hkbc⟩ : ∃ a r, oks.key_blocks = a :: r := by
    cases hkb : oks.key_blocks with
    | nil => rw [hkb] at hN; simp at hN
    | cons a r => exact ⟨a, r, rfl⟩
  obtain ⟨ca, cr, hcc⟩ : ∃ a r, curr5 = a :: r := by
    cases hc : curr5 with
    | nil => rw [hc] at hlen5; rw [hkbc] at hlen5; simp at hlen5
    | cons a r => exact ⟨a, r, rfl⟩
  have hrkbc : rks5.key_blocks = ca :: cr := by rw [hrkb5, hcc]
  have hrun : process_obj_with_sk s oid = some (updateObjById (updateObjById { updateObjById (updateObjById s5 oid (fun q => { q with data := { q.data with shape_keys := some (transfer_animation oks rks5).1 } })) s.next_id (fun r => { r with data := { r.data with shape_keys := some (transfer_animation oks rks5).2 } }) with objects := (updateObjById (updateObjById s5 oid (fun q => { q with data := { q.data with shape_keys := some (transfer_animation oks rks5).1 } })) s.next_id (fun r => { r with data := { r.data with shape_keys := some (transfer_animation oks rks5).2 } })).objects.filter (fun q => q.id != oid) } s.next_id (fun r => { r with data := { r.data with shape_keys := (r.data.shape_keys).map (fun ks => { ks with name := o.name ++ ".SK" }) } })) s.next_id (fun r => { r with name := o.name }), reps5) := by
    simp only [process_obj_with_sk, ho, hoks, hcopy, hb0id, hfb1, happ0, hloop, hfind_o5,
      hfind_r5, hrsk5]
    simp only [hkbc, hrkbc]
  refine ⟨_, _, { recv5 with name := o.name, data := { recv5.data with shape_keys := some { (transfer_animation oks rks5).2 with name := o.name ++ ".SK" } } },
    { (transfer_animation oks rks5).2 with name := o.name ++ ".SK" }, hrun, ?_, hi5, hn5, rfl, rfl, rfl, ?_, ?_⟩
  · -- the final object list
    show ((((s5.objects.map (fun p : Obj => if p.id = oid then { p with data := { p.data with shape_keys := some (transfer_animation oks rks5).1 } } else p)).map (fun p : Obj => if p.id = s.next_id then { p with data := { p.data with shape_keys := some (transfer_animation oks rks5).2 } } else p)).filter (fun q : Obj => q.id != oid)).map (fun p : Obj => if p.id = s.next_id then { p with data := { p.data with shape_keys := (p.data.shape_keys).map (fun ks => { ks with name := o.name ++ ".SK" }) } } else p)).map (fun p : Obj => if p.id = s.next_id then { p with name := o.name } else p) = M.filter (fun q : Obj => q.id != oid) ++ [{ recv5 with name := o.name, data := { recv5.data with shape_keys := some { (transfer_animation oks rks5).2 with name := o.name ++ ".SK" } } }]
    rw [ho5, List.map_append, List.map_append, List.filter_append, List.map_append,
      List.map_append]
    congr 1
    · refine filter_maps_untouched M (fun q hq hqp => ?_) (fun q hq => ?_)
      · have hne1 : q.id ≠ oid := by simpa using hqp
        simp [hne1, Nat.ne_of_lt (hMrid q hq)]
      · by_cases h1 : q.id = oid
        · simp [h1, Nat.ne_of_lt hoidlt]
        · simp [h1, Nat.ne_of_lt (hMrid q hq)]
    · simp [hi5, Ne.symm (Nat.ne_of_lt hoidlt), hrsk5]
  · show ((transfer_animation oks rks5).2).key_blocks.length = _
    rw [(transfer_animation_fields oks rks5).2.1, hrkb5]
    omega
  · intro j h1 h2
    obtain ⟨e, dj, he, hdj, hfe⟩ := hv5 j h1 (by omega)
    refine ⟨e, dj, ?_, hdj, hfe⟩
    show ((transfer_animation oks rks5).2).key_blocks[j]? = some e
    rw [(transfer_animation_fields oks rks5).2.1, hrkb5]
    exact he

/-- `process_obj_with_sk` on an object whose shape-key datablock has at
most one key block raises (basis-only objects lose their datablock on
`apply_shapekey(receiver, 0)` and the later `key_blocks` access fails;
key-less datablocks fail already inside `apply_shapekey`). -/
theorem process_obj_small_none {s : Scene} {oid : Nat} {o : Obj} {oks : Key}
    (hwf : sceneWF s)
    (ho : findObj s oid = some o)
    (hoks : o.data.shape_keys = some oks)
    (hsmall : oks.key_blocks.length ≤ 1) :
    process_obj_with_sk s oid = none := by
  have hids : ∀ p ∈ s.objects, p.id ≠ s.next_id := fun p hp => Nat.ne_of_lt (hwf.2 p hp)
  obtain ⟨nm, hcopy⟩ := copy_object_one s o
  set b0 : Obj := { o with id := s.next_id, name := nm } with hb0def
  have hb0id : b0.id = s.next_id := by rw [hb0def]
  set S1 : Scene := { s with objects := s.objects ++ [b0], next_id := s.next_id + 1 } with hS1def
  set b1 : Obj := { b0 with name := "sk_receiver" } with hb1def
  have hb1id : b1.id = s.next_id := by rw [hb1def, hb0def]
  have hb1ks : b1.data.shape_keys = some oks := hoks
  have hs2 : (updateObjById S1 s.next_id (fun r => { r with name := "sk_receiver" })).objects =
      s.objects ++ [b1] := by
    show (s.objects ++ [b0]).map (fun p : Obj => if p.id = s.next_id then { p with name := "sk_receiver" } else p) = _
    rw [List.map_append, map_update_fresh hids]
    simp [hb0id, hb1def]
  have hfb1 : findObj (updateObjById S1 s.next_id (fun r => { r with name := "sk_receiver" })) s.next_id = some b1 := by
    show (updateObjById S1 s.next_id (fun r => { r with name := "sk_receiver" })).objects.find? (fun p => p.id == s.next_id) = some b1
    rw [hs2]
    exact find?_append_fresh hb1id hids
  rcases Nat.le_one_iff_eq_zero_or_eq_one.mp hsmall with h0 | h1
  · have hkb0 : oks.key_blocks = [] := List.length_eq_zero.mp h0
    have happn : apply_shapekey b1 0 = none := by
      simp [apply_shapekey, hb1ks, hoks, hkb0, remove_other_keys]
    simp only [process_obj_with_sk, ho, hoks, hcopy, hb0id, hfb1, happn]
  · obtain ⟨k0, h0k⟩ : ∃ a, oks.key_blocks[0]? = some a :=
      ⟨_, List.getElem?_eq_getElem (by omega)⟩
    have happ0 : apply_shapekey b1 0 = some { b1 with data := { geo := k0.data, shape_keys := none } } :=
      apply_shapekey_valid hb1ks h0k
    set b2 : Obj := { b1 with data := { geo := k0.data, shape_keys := none } } with hb2def
    have hb2id : b2.id = s.next_id := by rw [hb2def, hb1def, hb0def]
    have hs3 : (updateObjById (updateObjById S1 s.next_id (fun r => { r with name := "sk_receiver" })) s.next_id (fun _ => b2)).objects = s.objects ++ [b2] := by
      show (updateObjById S1 s.next_id (fun r => { r with name := "sk_receiver" })).objects.map (fun p : Obj => if p.id = s.next_id then b2 else p) = _
      rw [hs2, List.map_append, map_update_fresh hids]
      simp [hb1id]
    have hfb2 : findObj (updateObjById (updateObjById S1 s.next_id (fun r => { r with name := "sk_receiver" })) s.next_id (fun _ => b2)) s.next_id = some b2 := by
      show (updateObjById (updateObjById S1 s.next_id (fun r => { r with name := "sk_receiver" })) s.next_id (fun _ => b2)).objects.find? (fun p => p.id == s.next_id) = some b2
      rw [hs3]
      exact find?_append_fresh hb2id hids
    set M : List Obj := s.objects.map (fun q : Obj => { q with selected := false }) with hMdef
    set B : Obj := (apply_modifiers_obj { b2 with selected := true }).1 with hBdef
    have hBid : B.id = s.next_id := by
      have h := (apply_modifiers_obj_frame { b2 with selected := true }).1
      rw [hBdef, h]
    have hBsk : B.data.shape_keys = none := by
      have h := (apply_modifiers_obj_frame { b2 with selected := true }).2.2.2.2.2
      rw [hBdef, h]
    have hs4objs : (apply_modifiers_scene (updateObjById (updateObjById S1 s.next_id (fun r => { r with name := "sk_receiver" })) s.next_id (fun _ => b2)) s.next_id).1.objects = M ++ [B] := by
      rw [apply_modifiers_scene_objects hfb2, hs3, List.map_append]
      congr 1
      · rw [hMdef]
        apply List.map_congr_left
        intro p hp
        rw [if_neg (hids p hp)]
      · simp [hBdef]
    have hMfind : M.find? (fun p => p.id == oid) = some { o with selected := false } := by
      rw [hMdef]
      rw [find_map_idpres s.objects (fun q => { q with selected := false }) (fun q => rfl) oid]
      show (findObj s oid).map _ = _
      rw [ho]
      rfl
    have hMrid : ∀ p ∈ M, p.id < s.next_id := by
      rw [hMdef]
      intro p hp
      obtain ⟨q, hq, rfl⟩ := List.mem_map.mp hp
      exact hwf.2 q hq
    have hrange : List.range' 1 (oks.key_blocks.length - 1) = [] := by rw [h1]; decide
    have hfo5 : findObj (apply_modifiers_scene (updateObjById (updateObjById S1 s.next_id (fun r => { r with name := "sk_receiver" })) s.next_id (fun _ => b2)) s.next_id).1 oid = some { o with selected := false } := by
      show (apply_modifiers_scene (updateObjById (updateObjById S1 s.next_id (fun r => { r with name := "sk_receiver" })) s.next_id (fun _ => b2)) s.next_id).1.objects.find? (fun p => p.id == oid) = _
      rw [hs4objs]
      exact find?_append_left hMfind
    have hfr5 : findObj (apply_modifiers_scene (updateObjById (updateObjById S1 s.next_id (fun r => { r with name := "sk_receiver" })) s.next_id (fun _ => b2)) s.next_id).1 s.next_id = some B := by
      show (apply_modifiers_scene (updateObjById (updateObjById S1 s.next_id (fun r => { r with name := "sk_receiver" })) s.next_id (fun _ => b2)) s.next_id).1.objects.find? (fun p => p.id == s.next_id) = some B
      rw [hs4objs]
      exact find?_append_fresh hBid (fun p hp => Nat.ne_of_lt (hMrid p hp))
    obtain ⟨ka, hkbc⟩ : ∃ a, oks.key_blocks = [a] := List.length_eq_one.mp h1
    simp only [process_obj_with_sk, ho, hoks, hcopy, hb0id, hfb1, happ0, hrange, withSkLoop,
      hfo5, hkbc, hfr5, hBsk]

/-- One batch step of `apply_all_modifiers_with_sk` preserves scene
well-formedness, never decreases the id counter, and keeps every other
object (up to deselection). -/
theorem process_obj_frame {s s2 : Scene} {oid : Nat} {reps : List Report}
    (hwf : sceneWF s)
    (hrun : process_obj_with_sk s oid = some (s2, reps)) :
    sceneWF s2 ∧ s.next_id ≤ s2.next_id ∧
    (∀ q ∈ s.objects, q.id ≠ oid → { q with selected := false } ∈ s2.objects) := by
  cases hfo : findObj s oid with
  | none =>
    simp only [process_obj_with_sk, hfo] at hrun
    cases hrun
  | some o =>
    cases hks : o.data.shape_keys with
    | none =>
      have hpr : process_obj_with_sk s oid = some (apply_modifiers_scene s oid) := by
        simp only [process_obj_with_sk, hfo, hks]
      rw [hpr] at hrun
      have hpair := Option.some.inj hrun
      have hs2 : s2 = (apply_modifiers_scene s oid).1 := (congrArg Prod.fst hpair).symm
      have hobjs := apply_modifiers_scene_objects hfo
      have hnext : s2.next_id = s.next_id := by
        rw [hs2]
        exact (apply_modifiers_scene_misc s oid).2.1
      refine ⟨⟨?_, ?_⟩, by rw [hnext], ?_⟩
      · rw [hs2, apply_modifiers_scene_ids]
        exact hwf.1
      · intro q hq
        have hidq : q.id ∈ s2.objects.map Obj.id := List.mem_map_of_mem Obj.id hq
        rw [hs2, apply_modifiers_scene_ids] at hidq
        obtain ⟨p, hp, hpq⟩ := List.mem_map.mp hidq
        rw [hnext, ← hpq]
        exact hwf.2 p hp
      · intro q hq hne
        rw [hs2, hobjs]
        refine List.mem_map.mpr ⟨q, hq, ?_⟩
        rw [if_neg hne]
    | some oks =>
      by_cases hN : 2 ≤ oks.key_blocks.length
      · obtain ⟨s2b, repsb, recvF, rksF, hrun2, hobj2, hrid2, hnext2, _, _, _, _, _⟩ :=
          process_obj_with_sk_spec hwf hfo hks hN
        rw [hrun2] at hrun
        have hpair := Option.some.inj hrun
        have hs2 : s2 = s2b := (congrArg Prod.fst hpair).symm
        subst hs2
        refine ⟨⟨?_, ?_⟩, Nat.le_of_lt hnext2, ?_⟩
        · rw [hobj2, List.map_append]
          rw [List.nodup_append]
          refine ⟨?_, List.nodup_singleton _, ?_⟩
          · refine List.Nodup.sublist ?_ hwf.1
            have h1 : ((s.objects.map (fun q : Obj => { q with selected := false })).filter (fun q : Obj => q.id != oid)).map Obj.id |>.Sublist ((s.objects.map (fun q : Obj => { q with selected := false })).map Obj.id) := List.Sublist.map Obj.id (List.filter_sublist _)
            rw [map_ids_of_idpres (g := fun q : Obj => { q with selected := false }) (fun p => rfl)] at h1
            exact h1
          · intro x hx
            simp only [List.map_cons, List.map_nil, List.mem_singleton]
            obtain ⟨p, hp, hpx⟩ := List.mem_map.mp hx
            have hpm : p ∈ s.objects.map (fun q : Obj => { q with selected := false }) :=
              List.mem_of_mem_filter hp
            obtain ⟨q, hq, hqp⟩ := List.mem_map.mp hpm
            intro hcon
            have : x < s.next_id := by
              rw [← hpx, ← hqp]
              exact hwf.2 q hq
            rw [hcon, hrid2] at this
            exact lt_irrefl _ this
        · intro q hq
          rw [hobj2] at hq
          rcases List.mem_append.mp hq with h | h
          · have hpm : q ∈ s.objects.map (fun r : Obj => { r with selected := false }) :=
              List.mem_of_mem_filter h
            obtain ⟨p, hp, hpq⟩ := List.mem_map.mp hpm
            have : q.id < s.next_id := by
              rw [← hpq]
              exact hwf.2 p hp
            exact Nat.lt_of_lt_of_le this (Nat.le_of_lt hnext2)
          · rcases List.mem_singleton.mp h with rfl
            rw [hrid2]
            exact hnext2
        · intro q hq hne
          rw [hobj2]
          refine List.mem_append_left _ ?_
          refine List.mem_filter.mpr ⟨List.mem_map_of_mem _ hq, ?_⟩
          simpa using hne
      · have hnone := process_obj_small_none hwf hfo hks (by omega)
        rw [hnone] at hrun
        cases hrun

/-- Objects whose id is hit by no batch entry survive the whole
`apply_all_modifiers_with_sk` loop (up to deselection). -/
theorem apply_all_with_sk_mem {batch : List Nat} :
    ∀ {s : Scene} {out : Scene × List Report} {r : Obj},
      sceneWF s →
      apply_all_modifiers_with_sk s batch = some out →
      r ∈ s.objects →
      (∀ i ∈ batch, i ≠ r.id) →
      (r ∈ out.1.objects ∨ { r with selected := false } ∈ out.1.objects) ∧
      sceneWF out.1 ∧ s.next_id ≤ out.1.next_id := by
  induction batch with
  | nil =>
    intro s out r hwf hrun hmem _
    simp only [apply_all_modifiers_with_sk] at hrun
    have h := Option.some.inj hrun
    rw [← h]
    exact ⟨Or.inl hmem, hwf, Nat.le_refl _⟩
  | cons b rest ih =>
    intro s out r hwf hrun hmem hne
    cases hpr : process_obj_with_sk s b with
    | none =>
      simp only [apply_all_modifiers_with_sk, hpr] at hrun
      cases hrun
    | some r1 =>
      obtain ⟨r1s, r1r⟩ := r1
      obtain ⟨hwf1, hmono1, hmem1⟩ := process_obj_frame hwf hpr
      have hmem1r : { r with selected := false } ∈ r1s.objects :=
        hmem1 r hmem (Ne.symm (hne b (List.mem_cons_self b rest)))
      cases hrec : apply_all_modifiers_with_sk r1s rest with
      | none =>
        simp only [apply_all_modifiers_with_sk, hpr, hrec] at hrun
        cases hrun
      | some r2 =>
        have hout : out = (r2.1, r1r ++ r2.2) := by
          simp only [apply_all_modifiers_with_sk, hpr, hrec] at hrun
          exact (Option.some.inj hrun).symm
        obtain ⟨hres, hwf2, hmono2⟩ :=
          ih hwf1 hrec hmem1r (fun i hi => hne i (List.mem_cons_of_mem b hi))
        rw [hout]
        refine ⟨?_, hwf2, Nat.le_trans hmono1 hmono2⟩
        cases hres with
        | inl h => exact Or.inr h
        | inr h => exact Or.inr h

/-- Through the whole batch loop, a processed object's shape-key metadata
survives on its receiver. -/
theorem apply_all_with_sk_roundtrip {batch : List Nat} :
    ∀ {s : Scene} {out : Scene × List Report} {oid : Nat} {o : Obj} {oks : Key},
      batch.Nodup →
      sceneWF s →
      (∀ i ∈ batch, i < s.next_id) →
      apply_all_modifiers_with_sk s batch = some out →
      oid ∈ batch →
      findObj s oid = some o →
      o.data.shape_keys = some oks →
      2 ≤ oks.key_blocks.length →
      ∃ (recv : Obj) (rks : Key),
        recv ∈ out.1.objects ∧ recv.name = o.name ∧
        recv.data.shape_keys = some rks ∧
        rks.name = o.name ++ ".SK" ∧
        rks.key_blocks.length = oks.key_blocks.length ∧
        (∀ j, 1 ≤ j → j < oks.key_blocks.length →
          ∃ e dj, rks.key_blocks[j]? = some e ∧ oks.key_blocks[j]? = some dj ∧ skFieldsEq e dj) := by
  induction batch with
  | nil =>
    intro s out oid o oks _ _ _ _ hmem _ _ _
    exact absurd hmem (List.not_mem_nil oid)
  | cons b rest ih =>
    intro s out oid o oks hnd hwf hbnd hrun hmem ho hoks hN
    cases hpr : process_obj_with_sk s b with
    | none =>
      simp only [apply_all_modifiers_with_sk, hpr] at hrun
      cases hrun
    | some r1 =>
      obtain ⟨r1s, r1r⟩ := r1
      cases hrec : apply_all_modifiers_with_sk r1s rest with
      | none =>
        simp only [apply_all_modifiers_with_sk, hpr, hrec] at hrun
        cases hrun
      | some r2 =>
        have hout : out = (r2.1, r1r ++ r2.2) := by
          simp only [apply_all_modifiers_with_sk, hpr, hrec] at hrun
          exact (Option.some.inj hrun).symm
        obtain ⟨hwf1, hmono1, hmem1⟩ := process_obj_frame hwf hpr
        rcases List.mem_cons.mp hmem with hb | hrest2
        · subst hb
          obtain ⟨s2b, repsb, recvF, rksF, hrun2, hobj2, hridF, hnextF, hnameF, hskF,
            hknameF, hklenF, hkinvF⟩ := process_obj_with_sk_spec hwf ho hoks hN
          rw [hpr] at hrun2
          have hr1s : r1s = s2b := congrArg Prod.fst (Option.some.inj hrun2)
          have hrecvmem : recvF ∈ r1s.objects := by
            rw [hr1s, hobj2]
            exact List.mem_append_right _ (List.mem_singleton.mpr rfl)
          have hneR : ∀ i ∈ rest, i ≠ recvF.id := by
            intro i hi hcon
            have hlt : i < s.next_id := hbnd i (List.mem_cons_of_mem oid hi)
            rw [hcon, hridF] at hlt
            exact lt_irrefl _ hlt
          obtain ⟨hsurv, _, _⟩ := apply_all_with_sk_mem hwf1 hrec hrecvmem hneR
          rw [hout]
          cases hsurv with
          | inl h => exact ⟨recvF, rksF, h, hnameF, hskF, hknameF, hklenF, hkinvF⟩
          | inr h =>
            exact ⟨{ recvF with selected := false }, rksF, h, hnameF, hskF, hknameF,
              hklenF, hkinvF⟩
        · have hone : oid ≠ b := fun he => (List.nodup_cons.mp hnd).1 (he ▸ hrest2)
          have himg : { o with selected := false } ∈ r1s.objects :=
            hmem1 o (List.mem_of_find?_eq_some ho) (by rw [findObj_some_id ho]; exact hone)
          have hfind1 : findObj r1s oid = some { o with selected := false } := by
            show r1s.objects.find? (fun p => p.id == oid) = _
            rw [show oid = ({ o with selected := false } : Obj).id from (findObj_some_id ho).symm]
            exact find_nodup_self hwf1.1 himg
          obtain ⟨recv, rks, hm, h2, h3, h4, h5, h6⟩ :=
            ih (List.nodup_cons.mp hnd).2 hwf1
              (fun i hi => Nat.lt_of_lt_of_le (hbnd i (List.mem_cons_of_mem b hi)) hmono1)
              hrec hrest2 hfind1 hoks hN
          rw [hout]
          exact ⟨recv, rks, hm, h2, h3, h4, h5, h6⟩

/-- **Claim C1.**  For every source object with shape keys processed by the
Apply Modifiers operator with action `ALL_MODIFIERS_WITH_SHAPEKEYS`, and for
every non-basis shape key of that object (index `j ≥ 1`), the receiver's
corresponding key after reassembly has `name`, `mute`, `slider_min`,
`slider_max`, `value`, `interpolation`, `lock_shape` and `vertex_group`
equal to the original key's values.  The receiver is the object that ends
up carrying the original object's name, with its shape-key datablock named
`<name>.SK` and as many key blocks as the original. -/
theorem apply_with_sk_metadata_roundtrip
    {s : Scene} {rp : Bool} {out : Scene × List Report × OpResult}
    {oid j : Nat} {o : Obj} {oks : Key} {dj : ShapeKey}
    (hwf : sceneWF s)
    (hex : sk_apply_mods_execute ApplyAction.ALL_MODIFIERS_WITH_SHAPEKEYS rp s = some out)
    (hmem : oid ∈ selected_mesh_ids s)
    (ho : findObj s oid = some o)
    (hoks : o.data.shape_keys = some oks)
    (hj : 1 ≤ j)
    (hdj : oks.key_blocks[j]? = some dj) :
    ∃ (recv : Obj) (rks : Key) (e : ShapeKey),
      recv ∈ out.1.objects ∧ recv.name = o.name ∧
      recv.data.shape_keys = some rks ∧
      rks.name = o.name ++ ".SK" ∧
      rks.key_blocks.length = oks.key_blocks.length ∧
      rks.key_blocks[j]? = some e ∧ skFieldsEq e dj := by
  have hjlt : j < oks.key_blocks.length := by
    cases hl : oks.key_blocks[j]? with
    | none => rw [hl] at hdj; cases hdj
    | some a => exact (List.getElem?_eq_some_iff.mp hl).1
  have hN : 2 ≤ oks.key_blocks.length := by omega
  obtain ⟨a, l, hsel⟩ : ∃ a l, selected_mesh_ids s = a :: l := by
    cases hb : selected_mesh_ids s with
    | nil => rw [hb] at hmem; cases hmem
    | cons a l => exact ⟨a, l, rfl⟩
  have hbne : (selected_mesh_ids s).isEmpty = false := by rw [hsel]; rfl
  have hnd : (selected_mesh_ids s).Nodup := by
    refine List.Nodup.sublist ?_ hwf.1
    exact List.Sublist.map Obj.id (List.filter_sublist _)
  have hbnd : ∀ i ∈ selected_mesh_ids s, i < s.next_id := by
    intro i hi
    obtain ⟨q, hq, rfl⟩ := List.mem_map.mp hi
    exact hwf.2 q (List.mem_of_mem_filter hq)
  simp only [sk_apply_mods_execute, hbne, Bool.false_eq_true, if_false] at hex
  cases hrp : rp with
  | false =>
    rw [hrp] at hex
    simp only [if_false, Bool.false_eq_true] at hex
    cases hrun : apply_all_modifiers_with_sk s (selected_mesh_ids s) with
    | none => rw [hrun] at hex; cases hex
    | some r =>
      rw [hrun] at hex
      have hout : out = (r.1, r.2, OpResult.FINISHED) := (Option.some.inj hex).symm
      obtain ⟨recv, rks, hm, h2, h3, h4, h5, h6⟩ :=
        apply_all_with_sk_roundtrip hnd hwf hbnd hrun hmem ho hoks hN
      obtain ⟨e, dj2, he, hdj2, hfe⟩ := h6 j hj hjlt
      rw [hdj] at hdj2
      have hdjeq : dj2 = dj := (Option.some.inj hdj2).symm
      rw [hout]
      exact ⟨recv, rks, e, hm, h2, h3, h4, h5, he, hdjeq ▸ hfe⟩
  | true =>
    rw [hrp] at hex
    simp only [if_true] at hex
    have hwfA : sceneWF { s with armatures := (reset_armature_pose (batchObjs s (selected_mesh_ids s)) s.armatures).1 } := hwf
    have hbndA : ∀ i ∈ selected_mesh_ids s, i < ({ s with armatures := (reset_armature_pose (batchObjs s (selected_mesh_ids s)) s.armatures).1 } : Scene).next_id := hbnd
    have hoA : findObj { s with armatures := (reset_armature_pose (batchObjs s (selected_mesh_ids s)) s.armatures).1 } oid = some o := ho
    cases hrun : apply_all_modifiers_with_sk { s with armatures := (reset_armature_pose (batchObjs s (selected_mesh_ids s)) s.armatures).1 } (selected_mesh_ids s) with
    | none => rw [hrun] at hex; cases hex
    | some r =>
      rw [hrun] at hex
      have hout : out = (r.1, r.2, OpResult.FINISHED) := (Option.some.inj hex).symm
      obtain ⟨recv, rks, hm, h2, h3, h4, h5, h6⟩ :=
        apply_all_with_sk_roundtrip hnd hwfA hbndA hrun hmem hoA hoks hN
      obtain ⟨e, dj2, he, hdj2, hfe⟩ := h6 j hj hjlt
      rw [hdj] at hdj2
      have hdjeq : dj2 = dj := (Option.some.inj hdj2).symm
      rw [hout]
      exact ⟨recv, rks, e, hm, h2, h3, h4, h5, he, hdjeq ▸ hfe⟩

/-- Closed witness for claim C1: a concrete scene with one selected mesh
carrying a Basis key and one non-basis key with distinctive metadata. -/
theorem apply_with_sk_metadata_roundtrip_witness :
    ∃ out, sk_apply_mods_execute ApplyAction.ALL_MODIFIERS_WITH_SHAPEKEYS false w1scene = some out ∧
      ∃ (recv : Obj) (rks : Key) (e : ShapeKey),
        recv ∈ out.1.objects ∧ recv.name = w1obj.name ∧
        recv.data.shape_keys = some rks ∧
        rks.name = w1obj.name ++ ".SK" ∧
        rks.key_blocks.length = w1ks.key_blocks.length ∧
        rks.key_blocks[1]? = some e ∧ skFieldsEq e w1key1 := by
  have h : (sk_apply_mods_execute ApplyAction.ALL_MODIFIERS_WITH_SHAPEKEYS false w1scene).isSome = true := by
    decide
  obtain ⟨out, hout⟩ := Option.isSome_iff_exists.mp h
  refine ⟨out, hout, ?_⟩
  exact @apply_with_sk_metadata_roundtrip w1scene false out 0 1 w1obj w1ks w1key1
    ⟨by decide, by decide⟩ hout (by decide) (by decide) rfl (by decide) rfl

end ShKeeper
